import Mathlib

/-!
Verification development for the PDF-Server XFA mapping engine.

The Python services under `app/services` and `app/utils` are shallowly
embedded below.  XML streams are modelled as already-parsed element trees
(`XElem`, tags stored namespace-stripped, so `strip_ns` is the identity in
the model); Python dicts are modelled as insertion-ordered association
lists; nested JSON values as the inductive `Json`.  Every definition is a
direct translation of the corresponding Python function; the source file
and function are named in each doc comment.
-/

namespace PdfSrv

/-- Python dict lookup (`d.get(k)`): first matching key of an
insertion-ordered association list. -/
def alGet {β : Type} : List (String × β) → String → Option β
  | [], _ => none
  | (k, v) :: rest, key => if k = key then some v else alGet rest key

/-- Python dict assignment (`d[k] = v`): replace in place, else append
(insertion order preserved, as for CPython dicts). -/
def alSet {β : Type} : List (String × β) → String → β → List (String × β)
  | [], key, val => [(key, val)]
  | (k, v) :: rest, key, val =>
    if k = key then (k, val) :: rest else (k, v) :: alSet rest key val

/-- Python `k in d` on a dict. -/
def alHas {β : Type} (l : List (String × β)) (key : String) : Bool :=
  (alGet l key).isSome

/-- Association list keyed by a path tuple (`Dict[tuple, int]` etc.). -/
def tlGet {β : Type} : List (List String × β) → List String → Option β
  | [], _ => none
  | (k, v) :: rest, key => if k = key then some v else tlGet rest key

/-- Assignment into a tuple-keyed dict. -/
def tlSet {β : Type} : List (List String × β) → List String → β → List (List String × β)
  | [], key, val => [(key, val)]
  | (k, v) :: rest, key, val =>
    if k = key then (k, val) :: rest else (k, v) :: tlSet rest key val

/-- Python `pat in s` (substring containment) on char lists. -/
def charsContains (s pat : List Char) : Bool :=
  match s with
  | [] => pat.isEmpty
  | _ :: rest => pat.isPrefixOf s || charsContains rest pat

/-- Python `pat in s` for strings. -/
def strContains (s pat : String) : Bool :=
  charsContains s.data pat.data

/-- Python `s.split(sep)` for a single-character separator (all split
sites of the services use one-character separators). -/
def pySplitAux (sep : Char) (acc : List Char) : List Char → List String
  | [] => [⟨acc.reverse⟩]
  | c :: rest =>
    if c = sep then ⟨acc.reverse⟩ :: pySplitAux sep [] rest
    else pySplitAux sep (c :: acc) rest

/-- String wrapper for `pySplitAux`. -/
def pySplit (s : String) (sep : Char) : List String :=
  pySplitAux sep [] s.data

/-- Python `s.lower()` (ASCII, which covers every compared name). -/
def pyLower (s : String) : String :=
  ⟨s.data.map Char.toLower⟩

/-- Python `s.startswith(pre)`. -/
def pyStartsWith (s pre : String) : Bool :=
  pre.data.isPrefixOf s.data

/-- Python `s.endswith(suf)`. -/
def pyEndsWith (s suf : String) : Bool :=
  suf.data.reverse.isPrefixOf s.data.reverse

/-- Python `s.replace(old, new)` for single characters. -/
def pyReplaceChar (s : String) (old new : Char) : String :=
  ⟨s.data.map (fun c => if c = old then new else c)⟩

/-- Python `s.replace(old, "")` for a single character. -/
def pyRemoveChar (s : String) (old : Char) : String :=
  ⟨s.data.filter (fun c => c ≠ old)⟩

/-- Python `s.replace("./", "")`: drop every (leftmost, non-overlapping)
dot-slash pair. -/
def removeDotSlashAux : List Char → List Char
  | '.' :: '/' :: rest => removeDotSlashAux rest
  | c :: rest => c :: removeDotSlashAux rest
  | [] => []

/-- String wrapper for `removeDotSlashAux`. -/
def removeDotSlash (s : String) : String :=
  ⟨removeDotSlashAux s.data⟩

/-- Python `int(s)` on an already-stripped string: optional sign then
decimal digits; `none` models `ValueError`. -/
def pyInt (s : String) : Option Int :=
  let core (ds : List Char) : Option Nat :=
    if ds.isEmpty then none
    else if ds.all Char.isDigit then
      some (ds.foldl (fun n c => n * 10 + (c.toNat - 48)) 0)
    else none
  match s.data with
  | '-' :: rest => (core rest).map (fun n => -(n : Int))
  | '+' :: rest => (core rest).map (fun n => (n : Int))
  | ds => (core ds).map (fun n => (n : Int))

/-- One step of the `\[\d+\]` scanner: the first component buffers a
pending `[digits` run (`none` outside a candidate), the second is the
output so far.  Equivalent to the leftmost non-overlapping matching of
`re.sub(r'\[\d+\]', repl, s)` for a `repl` given by `close`. -/
def idxMarkerStep (close : List Char → List Char)
    (st : Option (List Char) × List Char) (c : Char) : Option (List Char) × List Char :=
  match st.1 with
  | none => if c = '[' then (some ['['], st.2) else (none, st.2 ++ [c])
  | some buf =>
    if c.isDigit then (some (buf ++ [c]), st.2)
    else if c = ']' then
      if buf.length > 1 then (none, st.2 ++ close (buf.drop 1))
      else (none, st.2 ++ buf ++ [c])
    else if c = '[' then (some ['['], st.2 ++ buf)
    else (none, st.2 ++ buf ++ [c])

/-- Run the `\[\d+\]` scanner over a string, flushing an unterminated
buffer at the end. -/
def idxMarkerRun (close : List Char → List Char) (s : String) : List Char :=
  let fin := s.data.foldl (idxMarkerStep close) (none, [])
  fin.2 ++ (fin.1.getD [])

/-- Python `re.sub(r'\[\d+\]', '', s)`: drop every `[digits]` group. -/
def stripIndexMarkers (s : String) : String :=
  ⟨idxMarkerRun (fun _ => []) s⟩

/-- Python `re.match(r'^(.+)\[(\d+)\]$', part)`: split a trailing
`[digits]` index off a dotted-path segment. -/
def splitTrailingIndex (part : String) : Option (String × Nat) :=
  match part.data.reverse with
  | ']' :: rest =>
    let ds := rest.takeWhile Char.isDigit
    let stem := rest.dropWhile Char.isDigit
    match stem with
    | '[' :: stemRest =>
      if ds.isEmpty || stemRest.isEmpty then none
      else some (⟨stemRest.reverse⟩, ds.reverse.foldl (fun n c => n * 10 + (c.toNat - 48)) 0)
    | _ => none
  | _ => none

/-- Field type descriptor dict (`{"type": ..., "format": ..., "options": ...,
"value_map": ...}`); an absent `options`/`value_map` key is modelled as the
empty list, matching every `.get("options", [])` read site. -/
structure TypeInfo where
  type : String
  format : Option String := none
  options : List String := []
  value_map : List (String × String) := []
deriving DecidableEq, Repr

/-- Nested JSON value: strings, nulls (fill input), type-descriptor leaves
(type extraction output), objects and arrays. -/
inductive Json where
  | s : String → Json
  | null : Json
  | info : TypeInfo → Json
  | obj : List (String × Json) → Json
  | arr : List Json → Json
deriving Repr

/-- Scalar test (`not isinstance(v, (dict, list))`). -/
def Json.isScalar : Json → Bool
  | .obj _ => false
  | .arr _ => false
  | _ => true

mutual

/-- Dotted leaf key-paths of a JSON tree, array slots rendered `name[i]`,
each path prefixed by the accumulated prefix. -/
def leafPathsAux : Json → String → List String
  | .obj fs, p => leafPathsObj fs p
  | .arr xs, p => leafPathsArr xs 0 p
  | .s _, p => [p]
  | .null, p => [p]
  | .info _, p => [p]

/-- Leaf key-paths of the entries of a JSON object. -/
def leafPathsObj : List (String × Json) → String → List String
  | [], _ => []
  | (k, v) :: rest, p => leafPathsAux v (p ++ "." ++ k) ++ leafPathsObj rest p

/-- Leaf key-paths of the items of a JSON array starting at index `i`. -/
def leafPathsArr : List Json → Nat → String → List String
  | [], _, _ => []
  | v :: rest, i, p =>
    leafPathsAux v (p ++ "[" ++ toString i ++ "]") ++ leafPathsArr rest (i + 1) p

end

/-- Dotted leaf key-paths of a top-level extraction result
(`{"<baseTag>": ...}`): each top key is the path root. -/
def leafPaths : Json → List String
  | .obj fs => leafPathsObj2 fs
  | j => leafPathsAux j ""
where
  /-- Top-level entries contribute their key as the path root. -/
  leafPathsObj2 : List (String × Json) → List String
  | [] => []
  | (k, v) :: rest => leafPathsAux v k ++ leafPathsObj2 rest

/-- XML element: namespace-stripped tag, attributes, text (empty models
`None`), element children.  Comments and processing instructions are not
modelled (all children have string tags). -/
inductive XElem where
  | mk : String → List (String × String) → String → List XElem → XElem
deriving Repr

/-- Tag accessor (already namespace-stripped, so the source's
`strip_ns` and `QName(...).localname` are the identity here). -/
def XElem.tag : XElem → String
  | .mk t _ _ _ => t

/-- Attribute list accessor. -/
def XElem.attrs : XElem → List (String × String)
  | .mk _ a _ _ => a

/-- Text accessor (`el.text or ""`). -/
def XElem.text : XElem → String
  | .mk _ _ t _ => t

/-- Children accessor. -/
def XElem.children : XElem → List XElem
  | .mk _ _ _ c => c

/-- Attribute lookup (`el.get(name)`). -/
def XElem.getAttr (e : XElem) (k : String) : Option String :=
  alGet e.attrs k

mutual

/-- Document-order descendant-or-self list (`el.iter()` restricted to
element nodes, the element itself first). -/
def XElem.iterAll : XElem → List XElem
  | .mk t a x c => .mk t a x c :: iterAllList c

/-- Concatenated `iter()` lists of a sibling list, in document order. -/
def iterAllList : List XElem → List XElem
  | [] => []
  | e :: rest => e.iterAll ++ iterAllList rest

end

/-- Document-order strict descendants (the `.//` axis of ElementPath). -/
def XElem.descendants (e : XElem) : List XElem :=
  iterAllList e.children

/-- Strict descendants with a given tag (`findall(".//{*}tag")`). -/
def descendantsWithTag (e : XElem) (t : String) : List XElem :=
  e.descendants.filter (fun d => d.tag = t)

/-- ElementPath `.//t1/t2` candidates in traversal order: for each `t1`
descendant, its `t2` children. -/
def findDescChild (e : XElem) (t1 t2 : String) : List XElem :=
  (descendantsWithTag e t1).flatMap (fun v => v.children.filter (fun c => c.tag = t2))

/-- Python `\s` character class (`[ \t\n\r\f\v]`). -/
def pyIsSpace (c : Char) : Bool :=
  c = ' ' || c = '\t' || c = '\n' || c = '\r' || c = '\x0c' || c = '\x0b'

/-- Python `str.strip()`. -/
def pyStrip (s : String) : String :=
  ⟨((s.data.dropWhile pyIsSpace).reverse.dropWhile pyIsSpace).reverse⟩

/-- Section `pdf_field_type_service.normalize_picture`: the regex
`re.match(r'^\s*(date|time|num|text)\s*\x7b\s*(.+?)\s*\x7d\s*$', s, re.I)`.
The lazy inner group together with the anchored tail matches up to the last
closing brace followed only by whitespace, with surrounding whitespace
absorbed by the greedy spacers, so the captured group is the trimmed
content between the braces (which must be non-empty). -/
def matchPictureWrapper (s : String) : Option (String × String) :=
  let cs := s.data.dropWhile pyIsSpace
  let tryKw (kw : String) : Option (List Char) :=
    if (cs.take kw.length).map Char.toLower = kw.data then some (cs.drop kw.length) else none
  let kindRest : Option (String × List Char) :=
    match tryKw "date" with
    | some r => some ("date", r)
    | none =>
      match tryKw "time" with
      | some r => some ("time", r)
      | none =>
        match tryKw "num" with
        | some r => some ("num", r)
        | none =>
          match tryKw "text" with
          | some r => some ("text", r)
          | none => none
  match kindRest with
  | none => none
  | some (kind, rest1) =>
    match rest1.dropWhile pyIsSpace with
    | '\x7b' :: body =>
      match body.reverse.dropWhile pyIsSpace with
      | '\x7d' :: innerRev =>
        let innerRaw := innerRev.reverse
        if innerRaw.isEmpty then none
        else some (kind, pyStrip ⟨innerRaw⟩)
      | _ => none
    | _ => none

/-- Mask class of `normalize_picture` (`[A9X#]`). -/
def isMaskChar (c : Char) : Bool :=
  c = 'A' || c = '9' || c = 'X' || c = '#'

/-- Search for `[A9X#]` repeated at least twice (`re.search(r'[A9X#]\x7b2,\x7d', s)`). -/
def hasMaskRun : List Char → Bool
  | a :: b :: rest => (isMaskChar a && isMaskChar b) || hasMaskRun (b :: rest)
  | _ => false

/-- Non-overlapping left-to-right substitution of four consecutive
class characters (`re.sub(r'[yY]\x7b4\x7d', rep, s)`). -/
def subQuad (cls : Char → Bool) (rep : List Char) : List Char → List Char
  | a :: b :: c :: d :: rest =>
    if cls a && cls b && cls c && cls d then rep ++ subQuad cls rep rest
    else a :: subQuad cls rep (b :: c :: d :: rest)
  | l => l

/-- Non-overlapping substitution of two consecutive class characters
without lookaround (`re.sub(r'[mM]\x7b2\x7d', rep, s)` and similar). -/
def subPairCi (cls : Char → Bool) (rep : List Char) : List Char → List Char
  | a :: b :: rest =>
    if cls a && cls b then rep ++ subPairCi cls rep rest
    else a :: subPairCi cls rep (b :: rest)
  | l => l

/-- Substitution of a two-character class run guarded by negative
lookbehind/lookahead on `look`; `prev` is the preceding character of the
original string (lookarounds inspect the target string, as in `re.sub`). -/
def subPairLook (cls look : Char → Bool) (rep : List Char) :
    Option Char → List Char → List Char
  | _, [] => []
  | _, [a] => [a]
  | prev, a :: b :: rest =>
    let prevOk := match prev with | none => true | some pc => !look pc
    let nextOk := match rest with | [] => true | n :: _ => !look n
    if cls a && cls b && prevOk && nextOk then rep ++ subPairLook cls look rep (some b) rest
    else a :: subPairLook cls look rep (some a) (b :: rest)

/-- Substitution of a single class character guarded by negative
lookbehind/lookahead on `look` (`re.sub(r'(?<!M)[mM](?!M)', rep, s)`). -/
def subSingleLook (cls look : Char → Bool) (rep : Char) :
    Option Char → List Char → List Char
  | _, [] => []
  | prev, c :: rest =>
    let prevOk := match prev with | none => true | some pc => !look pc
    let nextOk := match rest with | [] => true | n :: _ => !look n
    if cls c && prevOk && nextOk then rep :: subSingleLook cls look rep (some c) rest
    else c :: subSingleLook cls look rep (some c) rest

/-- Whitespace-run collapse (`re.sub(r'\s+', ' ', s)`); `inRun` tracks
whether the previous character was part of a replaced run. -/
def collapseWsAux (inRun : Bool) : List Char → List Char
  | [] => []
  | c :: rest =>
    if pyIsSpace c then
      if inRun then collapseWsAux true rest else ' ' :: collapseWsAux true rest
    else c :: collapseWsAux false rest

/-- Character classes of the token-normalization substitutions. -/
def isYChar (c : Char) : Bool := c = 'y' || c = 'Y'

/-- Month-token class. -/
def isMChar (c : Char) : Bool := c = 'm' || c = 'M'

/-- Day-token class. -/
def isDChar (c : Char) : Bool := c = 'd' || c = 'D'

/-- Hour-token class. -/
def isHChar (c : Char) : Bool := c = 'h' || c = 'H'

/-- Second-token class. -/
def isSChar (c : Char) : Bool := c = 's' || c = 'S'

/-- Meridiem-token class. -/
def isAChar (c : Char) : Bool := c = 'a' || c = 'A'

/-- The mask check plus token-normalization cascade of
`normalize_picture` after the wrapper has been processed. -/
def normalizePictureCore (s : String) : Option String :=
  if hasMaskRun s.data then none
  else
    let t := s.data
    let t := subQuad isYChar "YYYY".data t
    let t := subPairLook isYChar (fun c => c = 'Y') "YY".data none t
    let t := subPairCi isMChar "MM".data t
    let t := subSingleLook isMChar (fun c => c = 'M') 'M' none t
    let t := subPairCi isDChar "DD".data t
    let t := subSingleLook isDChar (fun c => c = 'D') 'D' none t
    let t := subPairCi isHChar "HH".data t
    let t := subSingleLook isHChar (fun c => c = 'H') 'H' none t
    let t := subPairCi isSChar "ss".data t
    let t := subSingleLook (fun c => c = 's') (fun c => c = 's') 's' none t
    let t := subPairCi isAChar "AA".data t
    let r := pyStrip ⟨collapseWsAux false t⟩
    if r = "" then none else some r

/-- `app/services/pdf_field_type_service.py`, `normalize_picture`:
strip a `kind\x7b...\x7d` wrapper, discard text/num input masks and
mask-styled patterns, then canonicalize date/time tokens. -/
def normalizePicture : Option String → Option String
  | none => none
  | some f =>
    if f = "" then none
    else
      let s0 := pyStrip f
      match matchPictureWrapper s0 with
      | some (kind, inner) =>
        if kind = "text" || kind = "num" then none
        else normalizePictureCore inner
      | none => normalizePictureCore s0

/-- XFA value of `/AcroForm /XFA`: the name/stream array or a single
stream; streams are modelled as already-parsed XML trees. -/
inductive XfaVal where
  | array : List (String × XElem) → XfaVal
  | stream : XElem → XfaVal

/-- PDF document restricted to what the services read: `none` models a
missing `/AcroForm`; `some none` an AcroForm without the `/XFA` key. -/
structure PdfDoc where
  acroForm : Option (Option XfaVal)

/-- `app/utils/utils.py`, `_get_xfa`: raise when `/AcroForm` is missing
or has no `/XFA` key. -/
def getXfa (doc : PdfDoc) : Except String XfaVal :=
  match doc.acroForm with
  | none => .error "XFA entry not found"
  | some none => .error "XFA entry not found"
  | some (some v) => .ok v

/-- `app/utils/utils.py`, `read_datasets_from_pdf`: the stream paired
with the name equal (case-insensitively) to `datasets` is mandatory in the
array form; a single stream is returned whole. -/
def readDatasetsFromPdf (doc : PdfDoc) : Except String XElem := do
  let xfa ← getXfa doc
  match xfa with
  | .array parts =>
    match parts.find? (fun p => pyLower p.1 = "datasets") with
    | some p => .ok p.2
    | none => .error "datasets packet not found in XFA array"
  | .stream s => .ok s

/-- `app/utils/utils.py`, `read_template_from_pdf`: the `template`-named
stream is optional; absence (and the single-stream form) yields `None`
without raising. -/
def readTemplateFromPdf (doc : PdfDoc) : Except String (Option XElem) := do
  let xfa ← getXfa doc
  match xfa with
  | .array parts =>
    match parts.find? (fun p => pyLower p.1 = "template") with
    | some p => .ok (some p.2)
    | none => .ok none
  | .stream _ => .ok none

/-- `app/services/pdf_extract_service.py`, `_read_xfa_part_from_pdf`:
substring-match the part name in the XFA array; every failure is caught
and reported as `None`. -/
def readXfaPartFromPdf (doc : PdfDoc) (partName : String) : Option XElem :=
  match doc.acroForm with
  | some (some (.array parts)) =>
    match parts.find? (fun p => strContains (pyLower p.1) (pyLower partName)) with
    | some p => some p.2
    | none => none
  | some (some (.stream s)) => some s
  | _ => none

/-- `app/services/pdf_field_type_service.py`, `get_xfa_parts`. -/
def getXfaParts (doc : PdfDoc) : Except String (List (String × XElem)) :=
  match doc.acroForm with
  | none => .error "AcroForm not found"
  | some none => .error "XFA key not found"
  | some (some (.array parts)) => .ok parts
  | some (some (.stream s)) => .ok [("xfa", s)]

/-- `app/services/pdf_field_type_service.py`, `load_template_roots`:
prefer parts whose name contains `template` or `form`; parsing is the
identity in the model, and an empty root list raises. -/
def loadTemplateRoots (doc : PdfDoc) : Except String (List XElem) := do
  let parts ← getXfaParts doc
  let preferred := parts.filter
    (fun p => strContains (pyLower p.1) "template" || strContains (pyLower p.1) "form")
  let target := if preferred.isEmpty then parts else preferred
  let roots := target.map (fun p => p.2)
  if roots.isEmpty then .error "could not parse template xml" else .ok roots

/-! ## pdf_extract_service: base node, leaf-field collection -/

/-- Test for the XFA binding-metadata attribute
`xfa:dataNode="dataGroup"` (namespaces are dropped in the model). -/
def hasDataGroupAttr (e : XElem) : Bool :=
  e.getAttr "dataNode" = some "dataGroup"

mutual

/-- Document-order elements paired with the `_has_data_group_ancestor`
flag of their proper ancestors; the element's own attribute is folded in
for its children. -/
def elemsWithAncFlag (anc : Bool) : XElem → List (XElem × Bool)
  | .mk t a x c =>
    (.mk t a x c, anc) ::
      elemsWithAncFlagList (anc || hasDataGroupAttr (.mk t a x c)) c

/-- List version of `elemsWithAncFlag`. -/
def elemsWithAncFlagList (anc : Bool) : List XElem → List (XElem × Bool)
  | [] => []
  | c :: rest => elemsWithAncFlag anc c ++ elemsWithAncFlagList anc rest

end

/-- `pdf_extract_service._find_base_form_node` fallback: the first
`form`-named element (document order, root included), else the root. -/
def findBaseFallback (all : List (XElem × Bool)) (root : XElem) : XElem × String × Bool :=
  match (all.filter (fun p => p.1.tag = "form")).head? with
  | some (fn, anc) => (fn, fn.tag, anc)
  | none => (root, root.tag, false)

/-- `app/services/pdf_extract_service.py`, `_find_base_form_node`: prefer
the first child of the first `data` element, else the first `form`
element, else the root.  The third component models the
`_has_data_group_ancestor` walk above the returned base node. -/
def findBaseFormNode (root : XElem) : XElem × String × Bool :=
  let all := elemsWithAncFlag false root
  match (all.filter (fun p => p.1.tag = "data")).head? with
  | some (dn, dnAnc) =>
    match dn.children.head? with
    | some c => (c, c.tag, dnAnc || hasDataGroupAttr dn)
    | none => findBaseFallback all root
  | none => findBaseFallback all root

/-- Field record of `pdf_extract_service.Field`; the element is retained
only through its text (all later reads are `field.elem.text`). -/
structure PyField where
  text : String
  rel_xpath : String
  json_path : List (String × Int)
  key_for_map : String
deriving Repr

/-- `pdf_extract_service._is_leaf`: non-blank text, or no element
children. -/
def isLeafEl (e : XElem) : Bool :=
  if pyStrip e.text ≠ "" then true else e.children.isEmpty

/-- Button-name fragments excluded from field collection. -/
def buttonNames : List String :=
  ["SaveButton", "ResetButton", "PrintButton"]

/-- Test `any(btn in name for btn in [...])`. -/
def isButtonName (s : String) : Bool :=
  buttonNames.any (fun btn => strContains s btn)

/-- Number of elements of a sibling list with the given tag. -/
def sameTagCount (cs : List XElem) (t : String) : Nat :=
  (cs.filter (fun c => c.tag = t)).length

/-- Render one `(tag, idx)` segment of a JSON key (`tag[i]` for array
slots, `idx = -1` denoting a singular node). -/
def renderSeg : String × Int → String
  | (t, i) => if i ≥ 0 then t ++ "[" ++ toString i.toNat ++ "]" else t

/-- Dotted JSON key of a `(tag, idx)` path (`_collect_leaf_fields`). -/
def renderKey (p : List (String × Int)) : String :=
  String.intercalate "." (p.map renderSeg)

/-- Relative XPath of `_xpath_from_to` from accumulated segments. -/
def renderRel (parts : List String) : String :=
  if parts.isEmpty then "." else "./" ++ String.intercalate "/" parts

mutual

/-- Per-element step of `_collect_leaf_fields` (`base.iter()` with
`_path_with_index` / `_xpath_from_to` accumulated top-down): emit the
element if it is a leaf outside any dataGroup subtree and not a button
field, then recurse into the children. -/
def clfElem (dgAnc : Bool) (jsonPath : List (String × Int)) (relParts : List String) :
    XElem → List PyField
  | .mk t a x c =>
    let e := XElem.mk t a x c
    let dg := dgAnc || hasDataGroupAttr e
    let selfField : List PyField :=
      if dg then []
      else if isLeafEl e then
        if isButtonName e.tag then []
        else [{ text := e.text, rel_xpath := renderRel relParts,
                json_path := jsonPath, key_for_map := renderKey jsonPath }]
      else []
    selfField ++ clfChildren dg jsonPath relParts c [] c

/-- Child iteration of `clfElem`; `all` is the full sibling list (for
the same-tag count), `prev` the already-visited prefix (for the 0-based
repetition index of `_path_with_index` and the 1-based one of
`_xpath_from_to`). -/
def clfChildren (dg : Bool) (jsonPath : List (String × Int)) (relParts : List String)
    (all prev : List XElem) : List XElem → List PyField
  | [] => []
  | c :: rest =>
    let occ := sameTagCount prev c.tag
    let dup := sameTagCount all c.tag > 1
    let jIdx : Int := if dup then (occ : Int) else -1
    let relSegt := if dup then c.tag ++ "[" ++ toString (occ + 1) ++ "]" else c.tag
    clfElem dg (jsonPath ++ [(c.tag, jIdx)]) (relParts ++ [relSegt]) c ++
      clfChildren dg jsonPath relParts all (prev ++ [c]) rest

end

/-- Duplicate-key suffixing loop at the end of `_collect_leaf_fields`:
`n = seen.get(key, 0); if n > 0: key += "__%d" % (n+1); seen[key] = n+1`
(note the update is keyed by the possibly renamed key). -/
def dedupKeys (seen : List (String × Nat)) : List PyField → List PyField
  | [] => []
  | f :: rest =>
    let n := (alGet seen f.key_for_map).getD 0
    let f' := if n > 0 then
        { f with key_for_map := f.key_for_map ++ "__" ++ toString (n + 1) }
      else f
    f' :: dedupKeys (alSet seen f'.key_for_map (n + 1)) rest

/-- `app/services/pdf_extract_service.py`, `_collect_leaf_fields`;
`dgAnc` is the `_has_data_group_ancestor` flag of the base node's proper
ancestors (see `findBaseFormNode`). -/
def collectLeafFields (dgAnc : Bool) (base : XElem) : List PyField :=
  dedupKeys [] (clfElem dgAnc [] [] base)

/-! ## pdf_extract_service: nested JSON template building -/

/-- JSON object lookup (`cur.get(tag)` when `cur` is a dict). -/
def jGet : Json → String → Option Json
  | .obj fs, k => alGet fs k
  | _, _ => none

/-- List extension `while len(arr) <= idx: arr.append(fill)`. -/
def extendTo (items : List Json) (n : Nat) (fill : Json) : List Json :=
  items ++ List.replicate (n + 1 - items.length) fill

/-- `app/services/pdf_extract_service.py`, `_set_in_nested` (one loop
iteration per path segment).  The `step` closure is the iteration body
once `cur` is not a list; the leading "cur is a list" deref of lines
98-105 and 139-146 (use the first element, promoting it to a dict) is
applied around it. -/
def sinGo : Json → List (String × Int) → Json
  | cur, [] => cur
  | cur, (tag, idx) :: rest =>
    let isLeaf := rest.isEmpty
    let step : Json → Json := fun cur1 =>
      if idx ≥ 0 then
        match cur1 with
        | .obj fs =>
          let arr0 := (alGet fs tag).getD (Json.arr [])
          let items : List Json := match arr0 with
            | .arr its => its
            | .s v => if v = "" then [] else [Json.s v]
            | other => [other]
          let n := idx.toNat
          let items1 := extendTo items n (if isLeaf then Json.s "" else Json.obj [])
          if isLeaf then
            let items2 := match items1.get? n with
              | some (.obj _) => items1.set n (Json.s "")
              | _ => items1
            .obj (alSet fs tag (.arr items2))
          else
            let itemN := (items1.get? n).getD (Json.obj [])
            let item0 := match itemN with
              | .obj o => Json.obj o
              | _ => Json.obj []
            .obj (alSet fs tag (.arr (items1.set n (sinGo item0 rest))))
        | _ => cur1
      else
        match cur1 with
        | .obj fs =>
          if isLeaf then
            match alGet fs tag with
            | some (.obj _) => cur1
            | _ => .obj (alSet fs tag (Json.s ""))
          else
            match alGet fs tag with
            | some (.obj o) => .obj (alSet fs tag (sinGo (Json.obj o) rest))
            | some (.arr its) =>
              match its.head? with
              | some (.obj o) =>
                .obj (alSet fs tag (.arr (its.set 0 (sinGo (Json.obj o) rest))))
              | _ => cur1
            | _ => .obj (alSet fs tag (sinGo (Json.obj []) rest))
        | _ => cur1
    match cur with
    | .arr items =>
      let items0 := if items.isEmpty then [Json.obj []] else items
      let first := (items0.head?).getD (Json.obj [])
      let first1 := match first with
        | .obj o => Json.obj o
        | _ => Json.obj []
      .arr (items0.set 0 (step first1))
    | _ => step cur

/-- `pdf_extract_service._build_json_template`. -/
def buildJsonTemplate (baseTag : String) (fields : List PyField) : Json :=
  .obj [(baseTag, fields.foldl (fun t f => sinGo t f.json_path) (Json.obj []))]

/-! ## pdf_extract_service: form-tree path collection -/

/-- Truthy `name` attribute (`name = el.get("name"); if name:`). -/
def nameAttr (e : XElem) : Option String :=
  match e.getAttr "name" with
  | some n => if n = "" then none else some n
  | none => none

/-- First named `subform` among strict descendants
(`root.findall(".//{*}subform")` plus the `if name: break` loop), with
the dataGroup flag of its proper ancestors. -/
def firstNamedSubform (root : XElem) : Option (XElem × String × Bool) :=
  ((elemsWithAncFlagList (hasDataGroupAttr root) root.children).filter
      (fun p => p.1.tag = "subform")).findSome?
    (fun p => match nameAttr p.1 with
      | some n => some (p.1, n, p.2)
      | none => none)

mutual

/-- Recursive `walk` of `_collect_form_field_paths_from_pdf`; `selfFlag`
is the `_has_data_group_ancestor` value of `node` itself (its children
extend it with their own attribute). -/
def walkPaths (selfFlag : Bool) : XElem → List String → List (List String)
  | .mk _ _ _ c, segs => walkPathsList selfFlag c segs

/-- Child loop of `walkPaths`. -/
def walkPathsList (parentFlag : Bool) : List XElem → List String → List (List String)
  | [], _ => []
  | child :: rest, segs =>
    let childFlag := parentFlag || hasDataGroupAttr child
    let here : List (List String) :=
      if childFlag then []
      else if child.tag = "subform" then
        match nameAttr child with
        | some n => walkPaths childFlag child (segs ++ [n])
        | none => walkPaths childFlag child segs
      else if child.tag = "exclGroup" then
        match nameAttr child with
        | some g => [segs ++ [g]]
        | none => []
      else if child.tag = "field" then
        match nameAttr child with
        | some f => if isButtonName f then [] else [segs ++ [f]]
        | none => []
      else walkPaths childFlag child segs
    here ++ walkPathsList parentFlag rest segs

end

/-- `app/services/pdf_extract_service.py`,
`_collect_form_field_paths_from_pdf`. -/
def collectFormFieldPathsFromPdf (doc : PdfDoc) : Option String × List (List String) :=
  match readXfaPartFromPdf doc "form" with
  | none => (none, [])
  | some root =>
    match firstNamedSubform root with
    | none => (none, [])
    | some (baseSub, baseTag, anc) =>
      (some baseTag, walkPaths (anc || hasDataGroupAttr baseSub) baseSub [baseTag])

/-! ## pdf_extract_service: _build_field_template -/

/-- Tails of form paths relative to the base tag
(`_build_field_template`, step "path_tails"). -/
def computeTails (baseTag : String) (paths : List (List String)) : List (List String) :=
  paths.filterMap (fun segs =>
    if segs.isEmpty then none
    else
      let tail :=
        if segs.contains baseTag then segs.drop (segs.findIdx (fun s => s = baseTag) + 1)
        else if segs.length > 1 then segs.drop 1
        else []
      if tail.isEmpty then none else some tail)

/-- Multiplicity of each full tail (`path_count`). -/
def countTails (tails : List (List String)) : List (List String × Nat) :=
  tails.foldl (fun m t => tlSet m t ((tlGet m t).getD 0 + 1)) []

/-- Multiplicity of every non-empty prefix of every tail (`prefix_count`). -/
def countPrefixes (tails : List (List String)) : List (List String × Nat) :=
  tails.foldl
    (fun m t =>
      (List.range t.length).foldl
        (fun m i =>
          let p := t.take (i + 1)
          tlSet m p ((tlGet m p).getD 0 + 1)) m) []

/-- `KeepPageSeparate` groups of the dataset fields
(`keep_page_separate_groups` in `_build_field_template`): index of the
first indexed `KeepPageSeparate` segment mapped to the set of tag tails
after it. -/
def findKeepIdx : List (String × Int) → Option (Nat × List String)
  | [] => none
  | (tag, idx) :: rest =>
    if tag = "KeepPageSeparate" ∧ idx ≥ 0 then some (idx.toNat, rest.map (fun p => p.1))
    else findKeepIdx rest

/-- Lookup in a Nat-keyed association list. -/
def natGet {β : Type} : List (Nat × β) → Nat → Option β
  | [], _ => none
  | (k, v) :: rest, key => if k = key then some v else natGet rest key

/-- Assignment into a Nat-keyed association list. -/
def natSet {β : Type} : List (Nat × β) → Nat → β → List (Nat × β)
  | [], key, val => [(key, val)]
  | (k, v) :: rest, key, val =>
    if k = key then (k, val) :: rest else (k, v) :: natSet rest key val

/-- Builder of `keep_page_separate_groups`. -/
def buildKeepGroups (fields : List PyField) : List (Nat × List (List String)) :=
  fields.foldl
    (fun groups f =>
      match findKeepIdx f.json_path with
      | some (idx, tailTags) =>
        match natGet groups idx with
        | some s => if tailTags ∈ s then groups else natSet groups idx (s ++ [tailTags])
        | none => natSet groups idx [tailTags]
      | none => groups) []

/-- Group lookup of the special branch: per dataset group, exact tail
membership first, then first-tag partial match. -/
def findKeepGroupIdx (groups : List (Nat × List (List String)))
    (tailTags : List String) : Option Nat :=
  groups.findSome? (fun g =>
    if tailTags ∈ g.2 then some g.1
    else if g.2.any (fun ds => ¬tailTags.isEmpty ∧ ¬ds.isEmpty ∧ tailTags.head? = ds.head?)
    then some g.1
    else none)

/-- Generic repetition-index assignment of `_build_field_template`
(the `count > 1` branch): first position with a unique previous prefix
and a repeated current prefix gets the running index, else the final
segment does. -/
def genericAssignGo (tail : List String) (pc : List (List String × Nat)) (cidx : Nat)
    (i : Nat) (added : Bool) : List String → List (String × Int)
  | [] => []
  | tag :: rest =>
    let prevCnt := (tlGet pc (tail.take i)).getD 0
    let curCnt := (tlGet pc (tail.take (i + 1))).getD 0
    if prevCnt = 1 ∧ curCnt > 1 ∧ added = false then
      (tag, (cidx : Int)) :: genericAssignGo tail pc cidx (i + 1) true rest
    else if i = tail.length - 1 ∧ added = false then
      (tag, (cidx : Int)) :: genericAssignGo tail pc cidx (i + 1) added rest
    else
      (tag, -1) :: genericAssignGo tail pc cidx (i + 1) added rest

/-- Entry point of the generic assignment loop. -/
def genericAssign (tail : List String) (pc : List (List String × Nat)) (cidx : Nat) :
    List (String × Int) :=
  genericAssignGo tail pc cidx 0 false tail

/-- State threaded through the per-tail merge loop of
`_build_field_template`: the inner template object, `seen_paths` and
`prefix_seen`. -/
structure BFTState where
  tpl : Json
  seenPaths : List (List String × Nat)
  prefixSeen : List ((List String × Option String) × List (List String × Nat))

/-- Lookup in `prefix_seen` (keys are `keep_prefix` or
`(keep_prefix, first_tag)`; the model carries the optional first tag). -/
def psGet (l : List ((List String × Option String) × List (List String × Nat)))
    (k : List String × Option String) : Option (List (List String × Nat)) :=
  match l with
  | [] => none
  | (k0, v) :: rest => if k0 = k then some v else psGet rest k

/-- Assignment into `prefix_seen`. -/
def psSet (l : List ((List String × Option String) × List (List String × Nat)))
    (k : List String × Option String) (v : List (List String × Nat)) :
    List ((List String × Option String) × List (List String × Nat)) :=
  match l with
  | [] => [(k, v)]
  | (k0, v0) :: rest => if k0 = k then (k0, v) :: rest else (k0, v0) :: psSet rest k v

/-- One iteration of the per-tail loop of `_build_field_template`
(lines 365-492): the `KeepPageSeparate` special case, then the generic
repeated-path branch, then the single-value branch.  The `try/except`
around the body is modelled by the explicit early exit of the
`existing_keep` read (the only fallible step), which keeps the
`prefix_seen` mutation already performed. -/
def processTail (keepGroups : List (Nat × List (List String)))
    (pathCount prefixCount : List (List String × Nat))
    (st : BFTState) (tail : List String) : BFTState :=
  let pathKey := tail
  let count := (tlGet pathCount pathKey).getD 0
  if tail.isEmpty then st
  else if tail.length ≥ 2 ∧ tail.take 2 = ["Page1", "KeepPageSeparate"] ∧
      (tlGet prefixCount ["Page1", "KeepPageSeparate"]).getD 0 > 1 then
    let keepTailTags := tail.drop 2
    let resolved : Option (Nat × BFTState) :=
      match findKeepGroupIdx keepGroups keepTailTags with
      | some dsIdx => some (dsIdx, st)
      | none =>
        let firstTag := keepTailTags.head?
        let keyK : List String × Option String := (["Page1", "KeepPageSeparate"], firstTag)
        let inner := (psGet st.prefixSeen keyK).getD []
        let st1 := { st with prefixSeen := psSet st.prefixSeen keyK inner }
        match tlGet inner keepTailTags with
        | some stored => some (min stored 2, st1)
        | none =>
          let existingKeep? : Option Json :=
            match jGet st.tpl "Page1" with
            | none => some (Json.arr [])
            | some (.obj p1) => some ((alGet p1 "KeepPageSeparate").getD (Json.arr []))
            | some _ => none
          match existingKeep? with
          | none => none
          | some existingKeep =>
            let newIdx : Nat :=
              match existingKeep with
              | .arr items =>
                if firstTag = some "FamilyMember" then
                  match items.findIdx? (fun it =>
                      match it with
                      | .obj o => alHas o "FamilyMember"
                      | _ => false) with
                  | some i => i
                  | none => min items.length 2
                else min items.length 2
              | _ => 0
            let st2 := { st1 with
              prefixSeen := psSet st1.prefixSeen keyK (tlSet inner keepTailTags newIdx) }
            some (min newIdx 2, st2)
    match resolved with
    | none =>
      let firstTag := keepTailTags.head?
      let keyK : List String × Option String := (["Page1", "KeepPageSeparate"], firstTag)
      let inner := (psGet st.prefixSeen keyK).getD []
      { st with prefixSeen := psSet st.prefixSeen keyK inner }
    | some (keepIdx, st') =>
      match tail with
      | t0 :: t1 :: restTags =>
        let jsonPath := (t0, (-1 : Int)) :: (t1, (keepIdx : Int)) ::
          restTags.map (fun t => (t, (-1 : Int)))
        { st' with tpl := sinGo st'.tpl jsonPath }
      | _ => st'
  else if count > 1 then
    let (currentIdx, seen') :=
      match tlGet st.seenPaths pathKey with
      | none => (0, tlSet st.seenPaths pathKey 0)
      | some k => (k + 1, tlSet st.seenPaths pathKey (k + 1))
    let jsonPath := genericAssign tail prefixCount currentIdx
    { st with tpl := sinGo st.tpl jsonPath, seenPaths := seen' }
  else
    let jsonPath := tail.map (fun t => (t, (-1 : Int)))
    { st with tpl := sinGo st.tpl jsonPath }

/-- `app/services/pdf_extract_service.py`, `_build_field_template`:
dataset leaves into a nested template, then merge the form-tree field
paths with repetition disambiguation. -/
def buildFieldTemplate (doc : PdfDoc) : Except String Json := do
  let datasetsRoot ← readDatasetsFromPdf doc
  let (baseNode, baseTag, dgAnc) := findBaseFormNode datasetsRoot
  let fields := collectLeafFields dgAnc baseNode
  let tplInner := fields.foldl (fun t f => sinGo t f.json_path) (Json.obj [])
  let keepGroups := buildKeepGroups fields
  match collectFormFieldPathsFromPdf doc with
  | (some _, p :: ps) =>
    let pathTails := computeTails baseTag (p :: ps)
    let pathCount := countTails pathTails
    let prefixCount := countPrefixes pathTails
    let finalSt := pathTails.foldl (processTail keepGroups pathCount prefixCount)
      ⟨tplInner, [], []⟩
    .ok (Json.obj [(baseTag, finalSt.tpl)])
  | _ => .ok (Json.obj [(baseTag, tplInner)])

/-- `pdf_extract_service.extract_fields_from_pdf`. -/
def extractFieldsFromPdf (doc : PdfDoc) : Except String Json :=
  buildFieldTemplate doc

/-! ## pdf_field_type_service: template walk and type maps -/

/-- `pdf_field_type_service.first_text` applied to the first candidate
node of an ElementPath search. -/
def firstText (cands : List XElem) : Option String :=
  match cands.head? with
  | some t => let s := pyStrip t.text; if s ≠ "" then some s else none
  | none => none

/-- Order-preserving de-duplication (`seen, out = set(), []` loops). -/
def dedupeKeepOrder (seen : List String) : List String → List String
  | [] => []
  | x :: rest =>
    if x ∈ seen then dedupeKeepOrder seen rest
    else x :: dedupeKeepOrder (x :: seen) rest

/-- `pdf_field_type_service.parse_select_items`: stripped non-empty
`items/text` descendants, de-duplicated keeping order. -/
def parseSelectItems (field : XElem) : List String :=
  dedupeKeepOrder []
    ((findDescChild field "items" "text").filterMap
      (fun t => let s := pyStrip t.text; if s ≠ "" then some s else none))

/-- `pdf_field_type_service.caption_text`: first
`.//caption//value//text` with non-blank text, else first
`.//caption//text` with non-blank text. -/
def captionText (node : XElem) : Option String :=
  let caps := descendantsWithTag node "caption"
  let try1 := (caps.flatMap (fun c => descendantsWithTag c "value")).flatMap
    (fun v => descendantsWithTag v "text")
  match try1.head? with
  | some t =>
    let s := pyStrip t.text
    if s ≠ "" then some s
    else
      match (caps.flatMap (fun c => descendantsWithTag c "text")).head? with
      | some t2 => let s2 := pyStrip t2.text; if s2 ≠ "" then some s2 else none
      | none => none
  | none =>
    match (caps.flatMap (fun c => descendantsWithTag c "text")).head? with
    | some t2 => let s2 := pyStrip t2.text; if s2 ≠ "" then some s2 else none
    | none => none

/-- `pdf_field_type_service.collect_radio_options_from_group`: the
caption text (else truthy name) of each descendant field, stripped and
de-duplicated keeping order. -/
def collectRadioOptionsFromGroup (grp : XElem) : List String :=
  dedupeKeepOrder []
    ((descendantsWithTag grp "field").filterMap (fun rf =>
      match captionText rf with
      | some l => some (pyStrip l)
      | none =>
        match rf.getAttr "name" with
        | some n => if n = "" then none else some (pyStrip n)
        | none => none))

/-- Search of `parse_ui_and_format` for time tokens
(`re.search(r"(H|HH|m|mm|s|ss|AA)", fmt)`). -/
def hasTimeToken (f : String) : Bool :=
  f.data.any (fun c => c = 'H' || c = 'm' || c = 's') || strContains f "AA"

/-- `app/services/pdf_field_type_service.py`, `parse_ui_and_format`:
classify the field by its first `ui` widget child and normalize the
first `format/picture` text. -/
def parseUiAndFormat (field : XElem) : String × Option String :=
  let uiChild := ((descendantsWithTag field "ui").flatMap (fun u => u.children)).head?
  let fmtRaw := firstText (findDescChild field "format" "picture")
  let fmt := normalizePicture fmtRaw
  match uiChild with
  | none => ("text", fmt)
  | some u =>
    if u.tag = "textEdit" then ("text", fmt)
    else if u.tag = "choiceList" then ("select", none)
    else if u.tag = "checkButton" then ("checkbox", none)
    else if u.tag = "radioButton" then ("radio", none)
    else if u.tag = "dateTimeEdit" then
      match fmt with
      | some f => if hasTimeToken f then ("time", fmt) else ("date", fmt)
      | none => ("date", fmt)
    else (u.tag, fmt)

mutual

/-- Strict descendants paired with their `_get_template_field_path`
name path (truthy `name` attributes from below the root down to the
element, the root excluded). -/
def iterWithNames (anc : List String) : XElem → List (XElem × List String)
  | .mk t a x c =>
    let e := XElem.mk t a x c
    let myNames := match nameAttr e with
      | some n => anc ++ [n]
      | none => anc
    (e, myNames) :: iterWithNamesList myNames c

/-- List version of `iterWithNames`. -/
def iterWithNamesList (anc : List String) : List XElem → List (XElem × List String)
  | [] => []
  | c :: rest => iterWithNames anc c ++ iterWithNamesList anc rest

end

/-- Strict descendants of a template root with their name paths. -/
def templateDescWithNames (root : XElem) : List (XElem × List String) :=
  iterWithNamesList [] root.children

/-- `app/services/pdf_field_type_service.py`, `build_field_type_info`:
first every `exclGroup` (radio groups keyed by name path), then every
named `field`; results are indexed by slash path and by dotted JSON
path (`result_by_name` is never written and stays empty). -/
def buildFieldTypeInfo (doc : PdfDoc) :
    Except String (List (String × TypeInfo) × List (String × TypeInfo) ×
      List (String × TypeInfo)) := do
  let roots ← loadTemplateRoots doc
  let pass1 := roots.foldl
    (fun (maps : List (String × TypeInfo) × List (String × TypeInfo)) root =>
      (templateDescWithNames root).foldl
        (fun (maps : List (String × TypeInfo) × List (String × TypeInfo)) p =>
          let (el, names) := p
          if el.tag = "exclGroup" then
            match nameAttr el with
            | some _ =>
              let opts := collectRadioOptionsFromGroup el
              let entry : TypeInfo := { type := "radio", options := opts }
              let grpPath := String.intercalate "/" names
              if grpPath ≠ "" then
                (alSet maps.1 grpPath entry,
                 alSet maps.2 (String.intercalate "." names) entry)
              else maps
            | none => maps
          else maps) maps) (([], []) : _ × _)
  let pass2 := roots.foldl
    (fun (maps : List (String × TypeInfo) × List (String × TypeInfo)) root =>
      (templateDescWithNames root).foldl
        (fun (maps : List (String × TypeInfo) × List (String × TypeInfo)) p =>
          let (el, names) := p
          if el.tag = "field" ∧ (el.getAttr "name").isSome then
            match nameAttr el with
            | some _ =>
              let (ftype, fmt) := parseUiAndFormat el
              let entry : TypeInfo :=
                { type := ftype,
                  format := if (ftype = "date" ∨ ftype = "time") ∧ fmt.isSome then fmt else none,
                  options := if ftype = "select" then parseSelectItems el else [] }
              let fieldPath := String.intercalate "/" names
              if fieldPath ≠ "" then
                (alSet maps.1 fieldPath entry,
                 alSet maps.2 (String.intercalate "." names) entry)
              else maps
            | none => maps
          else maps) maps) pass1
  .ok (pass2.1, [], pass2.2)

/-- Windowed suffix attempts of `_get_type_info_for_path`: indices from
`max(0, len - 6)` to `len - 1`, joined with the given separator, first
hit wins. -/
def suffixWindowLookup (m : List (String × TypeInfo)) (segs : List String)
    (sep : String) : Option TypeInfo :=
  ((List.range segs.length).filter (fun i => i ≥ segs.length - 6)).findSome?
    (fun i => alGet m (String.intercalate sep (segs.drop i)))

/-- `pdf_field_type_service._get_type_info_for_path`: exact dotted path
(index markers stripped), dotted suffix windows, slash path, slash
suffix windows, then the whole cascade with the base tag stripped, and
finally the `text` default. -/
def getTypeInfoForPath (baseTag : String) (byJson byPath : List (String × TypeInfo))
    (fullJsonPath : String) : TypeInfo :=
  let clean := stripIndexMarkers fullJsonPath
  let step1 : Option TypeInfo :=
    match alGet byJson clean with
    | some ti => some ti
    | none => suffixWindowLookup byJson (pySplit clean '.') "."
  let step2 : Option TypeInfo :=
    match step1 with
    | some ti => some ti
    | none =>
      let pathSlash := pyReplaceChar clean '.' '/'
      match alGet byPath pathSlash with
      | some ti => some ti
      | none => suffixWindowLookup byPath (pySplit pathSlash '/') "/"
  let step3 : Option TypeInfo :=
    match step2 with
    | some ti => some ti
    | none =>
      if pyStartsWith clean (baseTag ++ ".") then
        let withoutBase := clean.drop (baseTag.length + 1)
        match alGet byJson withoutBase with
        | some ti => some ti
        | none =>
          let pathSlash := pyReplaceChar withoutBase '.' '/'
          match alGet byPath pathSlash with
          | some ti => some ti
          | none => suffixWindowLookup byPath (pySplit pathSlash '/') "/"
      else none
  match step3 with
  | some ti => ti
  | none => { type := "text" }

mutual

/-- `pdf_field_type_service.walk_template_and_set_types` on a JSON value
(the mutated target starts as a deep copy of the walked template, so the
model is the pure transform).  Returns the rewritten value and the
`json_path_type_map` entries in insertion order. -/
def wtJson (g : String → TypeInfo) (baseTag : String) (curPath : List String) :
    Json → Json × List (String × TypeInfo)
  | .obj fs =>
    let (fs', m) := wtObjList g baseTag curPath fs
    (.obj fs', m)
  | .arr items =>
    let (items', m) := wtArrItems g baseTag curPath 0 items
    (.arr items', m)
  | other => (other, [])

/-- Entry loop of the dict branch of `walk_template_and_set_types`. -/
def wtObjList (g : String → TypeInfo) (baseTag : String) (curPath : List String) :
    List (String × Json) → List (String × Json) × List (String × TypeInfo)
  | [] => ([], [])
  | (k, v) :: rest =>
    let newPath := curPath ++ [k]
    let fullJsonPath := baseTag ++ "." ++ String.intercalate "." newPath
    let (v', m1) : Json × List (String × TypeInfo) :=
      match v with
      | .obj o => wtJson g baseTag newPath (.obj o)
      | .arr items =>
        let (items', m) := wtArrItems g baseTag newPath 0 items
        (.arr items', m)
      | _ =>
        let ti := g fullJsonPath
        (.info ti, [(fullJsonPath, ti)])
    let (rest', m2) := wtObjList g baseTag curPath rest
    ((k, v') :: rest', m1 ++ m2)

/-- Item loop of the list branches of `walk_template_and_set_types`:
container items recurse with the index-free path; scalar items are
looked up without the index but stored with a `.[i]` suffix. -/
def wtArrItems (g : String → TypeInfo) (baseTag : String) (path : List String) (i : Nat) :
    List Json → List Json × List (String × TypeInfo)
  | [] => ([], [])
  | item :: rest =>
    let (item', m1) : Json × List (String × TypeInfo) :=
      match item with
      | .obj o => wtJson g baseTag path (.obj o)
      | .arr a => wtJson g baseTag path (.arr a)
      | _ =>
        let lookupPath :=
          if path.isEmpty then baseTag else baseTag ++ "." ++ String.intercalate "." path
        let ti := g lookupPath
        let storeKey := baseTag ++ "." ++
          String.intercalate "." (path ++ ["[" ++ toString i ++ "]"])
        (.info ti, [(storeKey, ti)])
    let (rest', m2) := wtArrItems g baseTag path (i + 1) rest
    (item' :: rest', m1 ++ m2)

end

/-- `app/services/pdf_field_type_service.py`,
`extract_field_types_with_path_map`: build the type maps, rebuild the
field template, and walk it replacing every leaf by its looked-up
descriptor. -/
def extractFieldTypesWithPathMap (doc : PdfDoc) :
    Except String (Json × List (String × TypeInfo)) := do
  let (byPath, _byName, byJson) ← buildFieldTypeInfo doc
  let fieldTemplate ← buildFieldTemplate doc
  match fieldTemplate with
  | .obj ((baseTag, inner) :: _) =>
    let g := getTypeInfoForPath baseTag byJson byPath
    let (inner', m) := wtJson g baseTag [] inner
    .ok (.obj [(baseTag, inner')], m)
  | _ => .ok (.obj [], [])

/-- `pdf_field_type_service.extract_field_types`. -/
def extractFieldTypes (doc : PdfDoc) : Except String Json := do
  let (result, _) ← extractFieldTypesWithPathMap doc
  .ok result

/-! ## pdf_extract_service: value extraction -/

/-- `app/services/pdf_extract_service.py`, `_set_value_in_nested` (one
loop iteration per path segment); returns the success flag together
with the updated object (mutations made before a `False` return
persist, notably the out-of-range array extension of the
`preserve_structure` branch). -/
def svnGo (cur : Json) (path : List (String × Int)) (value : String) (preserve : Bool) :
    Bool × Json :=
  match path with
  | [] => (true, cur)
  | (tag, idx) :: rest =>
    let isLeaf := rest.isEmpty
    if idx ≥ 0 then
      match cur with
      | .obj fs =>
        if preserve ∧ ¬alHas fs tag then (false, .obj fs)
        else
          let arr0 := (alGet fs tag).getD (Json.arr [])
          match arr0 with
          | .arr items =>
            let n := idx.toNat
            let items1 :=
              if ¬preserve then extendTo items n (if isLeaf then Json.s "" else Json.obj [])
              else items
            let items2 :=
              if n ≥ items1.length then
                extendTo items1 n (if isLeaf then Json.s "" else Json.obj [])
              else items1
            if isLeaf then
              (true, .obj (alSet fs tag (.arr (items2.set n (Json.s value)))))
            else
              match items2.get? n with
              | some (.obj o) =>
                let (ok, sub) := svnGo (.obj o) rest value preserve
                (ok, .obj (alSet fs tag (.arr (items2.set n sub))))
              | some _ =>
                if preserve then (false, .obj (alSet fs tag (.arr items2)))
                else
                  let (ok, sub) := svnGo (.obj []) rest value preserve
                  (ok, .obj (alSet fs tag (.arr (items2.set n sub))))
              | none => (false, .obj (alSet fs tag (.arr items2)))
          | _ =>
            if preserve then (false, .obj fs)
            else
              let items1 := extendTo [] idx.toNat (if isLeaf then Json.s "" else Json.obj [])
              if isLeaf then
                (true, .obj (alSet fs tag (.arr (items1.set idx.toNat (Json.s value)))))
              else
                let (ok, sub) := svnGo (.obj []) rest value preserve
                (ok, .obj (alSet fs tag (.arr (items1.set idx.toNat sub))))
      | _ =>
        if preserve then (false, cur)
        else
          -- `cur = \x7b\x7d` rebinds the local variable: the writes continue
          -- into an orphan dict and are lost, only the flag is reported.  On
          -- the fresh empty dict the iteration always reaches the extension
          -- and either writes the leaf (True) or recurses into a fresh dict.
          (if rest.isEmpty then true else (svnGo (Json.obj []) rest value preserve).1, cur)
    else
      match cur with
      | .obj fs =>
        if preserve ∧ ¬alHas fs tag then (false, .obj fs)
        else if isLeaf then (true, .obj (alSet fs tag (Json.s value)))
        else
          let sub0 := (alGet fs tag).getD (Json.obj [])
          match sub0 with
          | .obj o =>
            let (ok, sub) := svnGo (.obj o) rest value preserve
            (ok, .obj (alSet fs tag sub))
          | _ =>
            if preserve then (false, .obj fs)
            else
              -- `cur[tag] = \x7b\x7d` even over an existing non-dict value
              let (ok, sub) := svnGo (.obj []) rest value preserve
              (ok, .obj (alSet fs tag sub))
      | _ => (false, cur)

/-- Tuple construction shared by `collect_paths` and
`build_path_with_array_indices`: drop the base segment and append the
name. -/
def valueTuple (segs : List String) (name : String) : List String :=
  segs.drop 1 ++ [name]

mutual

/-- `collect_paths` inside `_collect_form_field_values_from_pdf`: the
path tuples of every exclGroup and non-button field, base tag dropped. -/
def collectValuePaths (selfFlag : Bool) : XElem → List String → List (List String)
  | .mk _ _ _ c, segs => collectValuePathsList selfFlag c segs

/-- Child loop of `collectValuePaths`. -/
def collectValuePathsList (parentFlag : Bool) : List XElem → List String → List (List String)
  | [], _ => []
  | child :: rest, segs =>
    let childFlag := parentFlag || hasDataGroupAttr child
    let here : List (List String) :=
      if childFlag then []
      else if child.tag = "subform" then
        match nameAttr child with
        | some n => collectValuePaths childFlag child (segs ++ [n])
        | none => collectValuePaths childFlag child segs
      else if child.tag = "exclGroup" then
        match nameAttr child with
        | some g => [valueTuple segs g]
        | none => []
      else if child.tag = "field" then
        match nameAttr child with
        | some f => if isButtonName f then [] else [valueTuple segs f]
        | none => []
      else collectValuePaths childFlag child segs
    here ++ collectValuePathsList parentFlag rest segs

end

/-- Index-rendering loop of `build_path_with_array_indices` (same
boundary rule as `genericAssignGo`, rendered as strings). -/
def valueAssignGo (tuple : List String) (pc : List (List String × Nat)) (cidx : Nat)
    (i : Nat) (added : Bool) : List String → List String
  | [] => []
  | tag :: rest =>
    let prevCnt := (tlGet pc (tuple.take i)).getD 0
    let curCnt := (tlGet pc (tuple.take (i + 1))).getD 0
    if prevCnt = 1 ∧ curCnt > 1 ∧ added = false then
      (tag ++ "[" ++ toString cidx ++ "]") :: valueAssignGo tuple pc cidx (i + 1) true rest
    else if i = tuple.length - 1 ∧ added = false then
      (tag ++ "[" ++ toString cidx ++ "]") :: valueAssignGo tuple pc cidx (i + 1) added rest
    else
      tag :: valueAssignGo tuple pc cidx (i + 1) added rest

/-- `app/services/pdf_extract_service.py`,
`build_path_with_array_indices` (closure inside
`_collect_form_field_values_from_pdf`): full dotted path with the
running occurrence index inserted for repeated tuples; returns the
updated `seen_paths`. -/
def buildPathWithArrayIndices (baseTag : String)
    (prefixCount pathCount : List (List String × Nat))
    (seen : List (List String × Nat)) (segs : List String) (fieldName : String) :
    String × List (List String × Nat) :=
  if segs.isEmpty then (fieldName, seen)
  else
    let pathTuple := valueTuple segs fieldName
    let (currentIdx, seen') :=
      match tlGet seen pathTuple with
      | none => (0, tlSet seen pathTuple 0)
      | some k => (k + 1, tlSet seen pathTuple (k + 1))
    let count := (tlGet pathCount pathTuple).getD 1
    let parts :=
      if count > 1 then valueAssignGo pathTuple prefixCount currentIdx 0 false pathTuple
      else pathTuple
    (baseTag ++ "." ++ String.intercalate "." parts, seen')

/-- Insert an empty value list for a path when absent (`results`
bookkeeping of `_collect_form_field_values_from_pdf`). -/
def resInit (rs : List (String × List String)) (k : String) : List (String × List String) :=
  if alHas rs k then rs else alSet rs k []

/-- Append a value to a path's list (creating it when absent). -/
def resAppend (rs : List (String × List String)) (k v : String) :
    List (String × List String) :=
  match alGet rs k with
  | none => alSet rs k [v]
  | some l => alSet rs k (l ++ [v])

/-- Selected-option search inside an exclGroup: the first descendant
field whose `value/text` is present, not `xsi:nil`, and has stripped
text other than the empty string and `"0"`. -/
def findSelectedOption (grp : XElem) : Option String :=
  (descendantsWithTag grp "field").findSome? (fun f =>
    match nameAttr f with
    | none => none
    | some fname =>
      match (findDescChild f "value" "text").head? with
      | none => none
      | some t =>
        if t.getAttr "nil" = some "true" then none
        else
          let fv := pyStrip t.text
          if fv = "1" ∨ fv = "Y" then some fname
          else if fv ≠ "" ∧ fv ≠ "0" then some fname
          else none)

/-- State of the value-collecting walk: the results dict and the shared
`seen_paths` counter. -/
structure CFVState where
  results : List (String × List String)
  seen : List (List String × Nat)

mutual

/-- Value-collecting `walk` of `_collect_form_field_values_from_pdf`. -/
def walkValues (selfFlag : Bool) (baseTag : String)
    (pc cnt : List (List String × Nat)) : XElem → List String → CFVState → CFVState
  | .mk _ _ _ c, segs, st => walkValuesList selfFlag baseTag pc cnt c segs st

/-- Child loop of `walkValues`. -/
def walkValuesList (parentFlag : Bool) (baseTag : String)
    (pc cnt : List (List String × Nat)) :
    List XElem → List String → CFVState → CFVState
  | [], _, st => st
  | child :: rest, segs, st =>
    let childFlag := parentFlag || hasDataGroupAttr child
    let st' : CFVState :=
      if childFlag then st
      else if child.tag = "subform" then
        match nameAttr child with
        | some n => walkValues childFlag baseTag pc cnt child (segs ++ [n]) st
        | none => walkValues childFlag baseTag pc cnt child segs st
      else if child.tag = "exclGroup" then
        match nameAttr child with
        | some g =>
          let (fullPath, seen') :=
            if segs.isEmpty then (g, st.seen)
            else buildPathWithArrayIndices baseTag pc cnt st.seen segs g
          let results' :=
            match findSelectedOption child with
            | some v => resAppend st.results fullPath v
            | none => resInit st.results fullPath
          ⟨results', seen'⟩
        | none => st
      else if child.tag = "field" then
        match nameAttr child with
        | some f =>
          if isButtonName f then st
          else
            let (fullPath, seen') :=
              if segs.isEmpty then (f, st.seen)
              else buildPathWithArrayIndices baseTag pc cnt st.seen segs f
            let results' :=
              match (findDescChild child "value" "text").head? with
              | some t =>
                let isNil := t.getAttr "nil" = some "true"
                let v := if isNil then "" else pyStrip t.text
                if v ≠ "" then resAppend st.results fullPath v
                else resInit st.results fullPath
              | none => resInit st.results fullPath
            ⟨results', seen'⟩
        | none => st
      else walkValues childFlag baseTag pc cnt child segs st
    walkValuesList parentFlag baseTag pc cnt rest segs st'

end

/-- `app/services/pdf_extract_service.py`,
`_collect_form_field_values_from_pdf`. -/
def collectFormFieldValuesFromPdf (doc : PdfDoc) :
    Option String × List (String × List String) :=
  match readXfaPartFromPdf doc "form" with
  | none => (none, [])
  | some root =>
    match firstNamedSubform root with
    | none => (none, [])
    | some (baseSub, baseTag, anc) =>
      let selfFlag := anc || hasDataGroupAttr baseSub
      let tuples := collectValuePaths selfFlag baseSub [baseTag]
      let prefixCount := countPrefixes tuples
      let pathCount := countTails tuples
      let final := walkValues selfFlag baseTag prefixCount pathCount baseSub [baseTag] ⟨[], []⟩
      (some baseTag, final.results)

/-- Radio decode of `extract_field_values` (lines 771-788): the common
boolean map first, then the numeric index with the 0-based reading
taking priority; run only for a non-empty value outside the option
list. -/
def decodeRadioExtract (options : List String) (v : String) : String :=
  if options.isEmpty || v = "" || options.contains v then v
  else
    let intBranch : String :=
      match pyInt v with
      | some i =>
        if 0 ≤ i ∧ i < (options.length : Int) then (options.get? i.toNat).getD v
        else if 1 ≤ i ∧ i ≤ (options.length : Int) then (options.get? (i.toNat - 1)).getD v
        else v
      | none => v
    let vmap : List (String × String) := [("Y", "Yes"), ("N", "No"), ("1", "Yes"), ("0", "No")]
    match alGet vmap v with
    | some mapped => if options.contains mapped then mapped else intBranch
    | none => intBranch

/-- Prefix descent of the multi-valued form merge in
`extract_field_values`: an indexed segment indexes the current value
directly, a plain segment reads the dict key. -/
def descendPrefix : Json → List (String × Int) → Option Json
  | j, [] => some j
  | j, (tag, idx) :: rest =>
    if idx ≥ 0 then
      match j with
      | .arr its =>
        if h : idx.toNat < its.length then descendPrefix (its.get ⟨idx.toNat, h⟩) rest
        else none
      | _ => none
    else
      match j with
      | .obj fs =>
        match alGet fs tag with
        | some v => descendPrefix v rest
        | none => none
      | _ => none

/-- One form-value merge step of `extract_field_values` (lines 813-912):
parse the dotted path, guard the base tag, then write single values (or
positional array fills) with `preserve_structure=True`. -/
def mergeFormValue (baseTag : String) (tpl : Json)
    (entry : String × List String) : Json :=
  let (fullJsonPath, vals) := entry
  let parts : List (String × Int) := (pySplit fullJsonPath '.').map (fun part =>
    match splitTrailingIndex part with
    | some (t, i) => (t, (i : Int))
    | none => (part, -1))
  match parts with
  | [] => tpl
  | (headTag, _) :: tagParts =>
    if headTag ≠ baseTag then tpl
    else match tagParts with
    | [] => tpl
    | _ :: _ =>
      match vals with
      | [] => tpl
      | v0 :: valsRest =>
        if valsRest.isEmpty then (svnGo tpl tagParts v0 true).2
        else
          let prefixPath := tagParts.dropLast
          match tagParts.getLast? with
          | none => tpl
          | some (lastTag, _) =>
            let prefixObj? := descendPrefix tpl prefixPath
            match prefixObj? with
            | some (.obj fs) =>
              match alGet fs lastTag with
              | some (.arr its) =>
                ((v0 :: valsRest).enum.foldl (fun t p =>
                  if p.1 < its.length then
                    (svnGo t (prefixPath ++ [(lastTag, (p.1 : Int))]) p.2 true).2
                  else t) tpl)
              | some _ => (svnGo tpl tagParts v0 true).2
              | none => (svnGo tpl tagParts v0 true).2
            | _ => (svnGo tpl tagParts v0 true).2

/-- `app/services/pdf_extract_service.py`, `extract_field_values`:
rebuild the template, fill dataset values (with the radio decode), then
merge form-tree values, all under `preserve_structure=True`. -/
def extractFieldValues (doc : PdfDoc) : Except String Json := do
  let jsonTpl ← buildFieldTemplate doc
  match jsonTpl with
  | .obj ((baseTag, tplInner) :: restTpl) =>
    let datasetsRoot ← readDatasetsFromPdf doc
    let (baseNode, _, dgAnc) := findBaseFormNode datasetsRoot
    let fields := collectLeafFields dgAnc baseNode
    let (_, jsonPathTypeMap) ← extractFieldTypesWithPathMap doc
    let tpl1 := fields.foldl (fun tpl field =>
      let v := pyStrip field.text
      let jsonPath := baseTag ++ "." ++ renderKey field.json_path
      let cleanJsonPath := stripIndexMarkers jsonPath
      let fieldTypeInfo :=
        match alGet jsonPathTypeMap cleanJsonPath with
        | some ti => some ti
        | none => alGet jsonPathTypeMap jsonPath
      let v' :=
        match fieldTypeInfo with
        | some ti => if ti.type = "radio" then decodeRadioExtract ti.options v else v
        | none => v
      (svnGo tpl field.json_path v' true).2) tplInner
    let (formBaseTag?, formValues) := collectFormFieldValuesFromPdf doc
    let tpl2 :=
      match formBaseTag? with
      | some _ =>
        if formValues.isEmpty then tpl1
        else formValues.foldl (mergeFormValue baseTag) tpl1
      | none => tpl1
    .ok (.obj ((baseTag, tpl2) :: restTpl))
  | _ => .ok jsonTpl

/-! ## pdf_filler_service and utils.set_node -/

/-- `app/services/pdf_filler_service.py`, `_convert_value_for_field`:
decode radio values against the descriptor (label, value_map, common
boolean map, numeric 1-based then 0-based, case-insensitive), and return
every other value unchanged. -/
def convertValueForField (value : String) (info : Option TypeInfo) : String :=
  match info with
  | none => value
  | some ti =>
    if value = "" then value
    else
      let options := ti.options
      if ti.type = "radio" ∧ ¬options.isEmpty then
        if options.contains value then value
        else
          let step2 : Option String :=
            if ¬ti.value_map.isEmpty then
              match alGet ti.value_map value with
              | some mapped => if options.contains mapped then some mapped else none
              | none => none
            else none
          let common : List (String × String) :=
            [("Y", "Yes"), ("N", "No"), ("1", "Yes"), ("0", "No")]
          let step3 : Option String :=
            match alGet common value with
            | some c => if options.contains c then some c else none
            | none => none
          let step4 : Option String :=
            match pyInt value with
            | some i =>
              if 1 ≤ i ∧ i ≤ (options.length : Int) then options.get? (i.toNat - 1)
              else if 0 ≤ i ∧ i < (options.length : Int) then options.get? i.toNat
              else none
            | none => none
          let step5 : Option String := options.find? (fun o => pyLower o = pyLower value)
          ((step2 <|> step3) <|> (step4 <|> step5)).getD value
      else value

/-- Numeric value of a digit run. -/
def digitsToNat (ds : List Char) : Nat :=
  ds.foldl (fun n c => n * 10 + (c.toNat - 48)) 0

/-- Python `re.sub(r'\[(\d+)\]', lambda m: f"[\x7bint(m)+1\x7d]", s)`:
0-based array markers shifted to the 1-based XFA convention. -/
def bumpIndices (s : String) : String :=
  ⟨idxMarkerRun (fun ds => '[' :: (toString (digitsToNat ds + 1)).data ++ [']']) s⟩

/-- `app/services/pdf_filler_service.py`, `_json_path_to_xfa_path`:
map hit first, else strip the base tag, shift indices to 1-based and
turn dots into slashes. -/
def jsonPathToXfaPath (jsonPath baseTag : String)
    (fxm : Option (List (String × String))) : String :=
  let mapHit := match fxm with
    | some m => alGet m jsonPath
    | none => none
  match mapHit with
  | some x => x
  | none =>
    if pyStartsWith jsonPath (baseTag ++ ".") then
      let rel := jsonPath.drop (baseTag.length + 1)
      if rel = "" then "./"
      else "./" ++ pyReplaceChar (bumpIndices rel) '.' '/'
    else if jsonPath = baseTag then "./"
    else
      let rel := jsonPath
      if rel = "" then "./"
      else "./" ++ pyReplaceChar (bumpIndices rel) '.' '/'

/-- Step of the index-value collector (`re.finditer(r'\[(\d+)\]', s)`):
buffer as in `idxMarkerStep`, emitting the numeric value of every
completed group. -/
def idxValuesStep (st : Option (List Char) × List Nat) (c : Char) :
    Option (List Char) × List Nat :=
  match st.1 with
  | none => if c = '[' then (some ['['], st.2) else (none, st.2)
  | some buf =>
    if c.isDigit then (some (buf ++ [c]), st.2)
    else if c = ']' then
      if buf.length > 1 then (none, st.2 ++ [digitsToNat (buf.drop 1)])
      else (none, st.2)
    else if c = '[' then (some ['['], st.2)
    else (none, st.2)

/-- All `[digits]` index values of a dotted path, in order. -/
def extractIndices (s : String) : List Nat :=
  (s.data.foldl idxValuesStep (none, [])).2

/-- `app/services/pdf_filler_service.py`, `_find_matching_xpath`: exact
key, then structurally identical keys (index markers stripped) with an
exact index-pattern pass, then dotted prefixes, then the
parent/field-name heuristics. -/
def findMatchingXpath (jsonPath : String) (fxm : List (String × String))
    (baseTag : String) : Option String :=
  if fxm.isEmpty then none
  else
    match alGet fxm jsonPath with
    | some x => some x
    | none =>
      let clean := stripIndexMarkers jsonPath
      let matchingKeys := (fxm.map (fun p => p.1)).filter
        (fun k => stripIndexMarkers k = clean)
      match matchingKeys with
      | k0 :: _ =>
        let jsonIndices := extractIndices jsonPath
        match matchingKeys.find? (fun k => extractIndices k = jsonIndices) with
        | some k => alGet fxm k
        | none => alGet fxm k0
      | [] =>
        let parts := pySplit jsonPath '.'
        let prefixHit := ((List.range parts.length).reverse).findSome?
          (fun i => alGet fxm (String.intercalate "." (parts.take (i + 1))))
        match prefixHit with
        | some x => some x
        | none =>
          if parts.length ≥ 2 then
            let fieldName := (parts.getLast?).getD ""
            let parentName := (parts.get? (parts.length - 2)).getD ""
            match alGet fxm (baseTag ++ ".Page1." ++ parentName ++ "." ++ fieldName) with
            | some x => some x
            | none =>
              match alGet fxm (baseTag ++ "." ++ parentName ++ "." ++ fieldName) with
              | some x => some x
              | none =>
                (fxm.find? (fun p =>
                  pyEndsWith p.1 ("." ++ fieldName) ∧ strContains p.1 parentName)).map
                  (fun p => p.2)
          else none

/-- Attribute assignment (`el.set(k, v)`). -/
def setAttrEl (e : XElem) (k v : String) : XElem :=
  .mk e.tag (alSet e.attrs k v) e.text e.children

/-- Text assignment (`el.text = v`). -/
def setTextEl (e : XElem) (v : String) : XElem :=
  .mk e.tag e.attrs v e.children

/-- Child replacement at a position. -/
def replaceChildAt (e : XElem) (j : Nat) (c : XElem) : XElem :=
  .mk e.tag e.attrs e.text (e.children.set j c)

/-- Child appending (`parent.append(el)`). -/
def appendChild (e : XElem) (c : XElem) : XElem :=
  .mk e.tag e.attrs e.text (e.children ++ [c])

mutual

/-- Rewrite the first descendant with a given tag (document order),
reporting failure when none exists (`find(".//{*}t")` + mutation). -/
def modFirstDescElem (t : String) (f : XElem → XElem) : XElem → Option XElem
  | .mk tg a x c =>
    if tg = t then some (f (.mk tg a x c))
    else
      match modFirstDescList t f c with
      | some c' => some (.mk tg a x c')
      | none => none

/-- Sibling-list version of `modFirstDescElem`. -/
def modFirstDescList (t : String) (f : XElem → XElem) : List XElem → Option (List XElem)
  | [] => none
  | c :: rest =>
    match modFirstDescElem t f c with
    | some c' => some (c' :: rest)
    | none =>
      match modFirstDescList t f rest with
      | some rest' => some (c :: rest')
      | none => none

end

/-- The mutation `set_node` applies to the resolved node: direct text
for plain nodes, and the `value/text` (descendant search, creation with
`override="1"`) dance for `field` nodes. -/
def applySetVal (val : String) (cur : XElem) : XElem :=
  if cur.tag = "field" then
    let fixValue (ve : XElem) : XElem :=
      let ve1 := setAttrEl ve "override" "1"
      match modFirstDescList "text" (fun te => setTextEl te val) ve1.children with
      | some c' => .mk ve1.tag ve1.attrs ve1.text c'
      | none => appendChild ve1 (.mk "text" [] val [])
    match modFirstDescList "value" fixValue cur.children with
    | some c' => .mk cur.tag cur.attrs cur.text c'
    | none =>
      appendChild cur (.mk "value" [("override", "1")] "" [.mk "text" [] val []])
  else setTextEl cur val

/-- Stem before the first `[` of a path part (`part.split("[")[0]`). -/
def bracketStem (part : String) : String :=
  ⟨part.data.takeWhile (fun c => c ≠ '[')⟩

/-- Index text of a bracketed part
(`part.split("[")[1].split("]")[0]`). -/
def bracketIdxStr (part : String) : String :=
  ⟨(((part.data.dropWhile (fun c => c ≠ '[')).drop 1).takeWhile
    (fun c => c ≠ '[' ∧ c ≠ ']'))⟩

/-- Direct-child resolution of one path part (`set_node` method 1 and
the `RadioButtonList` parent walk): bracketed parts select the n-th
same-tag child (1-based, with Python's negative wrap), plain parts the
first child by tag, else by `name` attribute. -/
def resolveChildIdx (cur : XElem) (part : String) : Option Nat :=
  if strContains part "[" ∧ strContains part "]" then
    match pyInt (bracketIdxStr part) with
    | none => none
    | some i0 =>
      let iAdj := i0 - 1
      let matching := cur.children.enum.filter (fun p => p.2.tag = bracketStem part)
      if iAdj < (matching.length : Int) then
        if 0 ≤ iAdj then (matching.get? iAdj.toNat).map (fun p => p.1)
        else
          let wrapped := (matching.length : Int) + iAdj
          if 0 ≤ wrapped then (matching.get? wrapped.toNat).map (fun p => p.1) else none
      else none
  else
    match (cur.children.enum.filter (fun p => p.2.tag = part)).head? with
    | some (j, _) => some j
    | none =>
      match (cur.children.enum.filter (fun p => p.2.getAttr "name" = some part)).head? with
      | some (j, _) => some j
      | none => none

/-- Descend through direct children along path parts, then apply the
mutation at the resolved node (`set_node` method 1). -/
def setNodeM1 (cur : XElem) : List String → (XElem → XElem) → Option XElem
  | [], apply => some (apply cur)
  | part :: rest, apply =>
    match resolveChildIdx cur part with
    | some j =>
      match cur.children.get? j with
      | some c => (setNodeM1 c rest apply).map (fun c' => replaceChildAt cur j c')
      | none => none
    | none => none

mutual

/-- Strict descendants with their child-index paths, in document
order. -/
def descPathsOf (p : List Nat) : XElem → List (List Nat × XElem)
  | .mk _ _ _ c => descPathsList p 0 c

/-- Sibling-list version of `descPathsOf`. -/
def descPathsList (p : List Nat) (i : Nat) : List XElem → List (List Nat × XElem)
  | [] => []
  | c :: rest => (p ++ [i], c) :: descPathsOf (p ++ [i]) c ++ descPathsList p (i + 1) rest

end

/-- Child-chain candidates below a matched head node (`a/b/c` steps of
an XPath location path). -/
def chainFinalsFrom (basePath : List Nat) (a : XElem) :
    List String → List (List Nat × XElem)
  | [] => [(basePath, a)]
  | t :: rest =>
    a.children.enum.flatMap (fun p =>
      if p.2.tag = t then chainFinalsFrom (basePath ++ [p.1]) p.2 rest else [])

/-- All final nodes of `.//t0/t1/.../tn` with their index paths. -/
def xpathDescChainFinals (form : XElem) (tags : List String) :
    List (List Nat × XElem) :=
  match tags with
  | [] => []
  | t0 :: rest =>
    (descPathsOf [] form).flatMap (fun p =>
      if p.2.tag = t0 then chainFinalsFrom p.1 p.2 rest else [])

/-- Lexicographic order on index paths (equals document order). -/
def lexLt : List Nat → List Nat → Bool
  | [], [] => false
  | [], _ :: _ => true
  | _ :: _, [] => false
  | a :: as_, b :: bs => if a < b then true else if b < a then false else lexLt as_ bs

/-- Document-order-first final node of the chain (`form.xpath(expr)[0]`,
XPath node sets being document ordered). -/
def minLexFinal (finals : List (List Nat × XElem)) : Option (List Nat) :=
  finals.foldl
    (fun best p =>
      match best with
      | none => some p.1
      | some b => if lexLt p.1 b then some p.1 else some b) none

/-- Apply a mutation at a child-index path. -/
def modifyAtPath (e : XElem) (p : List Nat) (f : XElem → XElem) : XElem :=
  match p with
  | [] => f e
  | j :: rest =>
    match e.children.get? j with
    | some c => replaceChildAt e j (modifyAtPath c rest f)
    | none => e

/-- `app/utils/utils.py`, `set_node`: resolve the relative path by
direct-children descent (method 1), falling back to a whole-document
descendant-chain XPath (method 2); `field` nodes get their value/text
updated, plain nodes their text; unresolved paths are a no-op. -/
def setNode (form : XElem) (xpath : String) (val : String) : XElem :=
  if (pyStartsWith xpath "./") ∨ strContains xpath "/" then
    let relPath := if pyStartsWith xpath "./" then xpath.drop 2 else xpath
    if relPath = "" then form
    else
      let pathParts := (pySplit relPath '/').filter (fun p => p ≠ "")
      if pathParts.isEmpty then form
      else
        match setNodeM1 form pathParts (applySetVal val) with
        | some form' => form'
        | none =>
          let tags := pathParts.map bracketStem
          match minLexFinal (xpathDescChainFinals form tags) with
          | some p => modifyAtPath form p (applySetVal val)
          | none => form
  else
    match (form.children.enum.find? (fun p => p.2.tag = xpath)) with
    | some (i, c) => replaceChildAt form i (setTextEl c val)
    | none => form

/-! ## pdf_filler_service: _traverse_json_to_xfa -/

/-- Python `"" if value is None else str(value)` on a JSON scalar (the
reprs of containers, only reachable for malformed input, are not
modelled). -/
def jsonScalarToStr : Json → String
  | .s v => v
  | _ => ""

/-- First index of a string in a list (`options.index(x)`). -/
def idxOfStr (l : List String) (x : String) : Option Nat :=
  (l.enum.find? (fun p => p.2 = x)).map (fun p => p.1)

/-- First character lowercased (`s[0].lower() + s[1:]`). -/
def lowerFirst (s : String) : String :=
  match s.data with
  | [] => ""
  | c :: rest => ⟨c.toLower :: rest⟩

/-- Indices `len-1, ..., 1` (`range(len(parts)-1, 0, -1)`). -/
def downRange (n : Nat) : List Nat :=
  ((List.range n).drop 1).reverse

/-- Field-type resolution of the scalar branch of
`_traverse_json_to_xfa` (steps 1-4 of lines 311-362): exact path,
index-stripped path, parent/child radio scan (also yielding
`radio_parent_path`), and the radio field-name scan. -/
def resolveFieldTypeInfo (ftm : List (String × TypeInfo)) (jsonPath : String) :
    Option TypeInfo × Option String :=
  if ftm.isEmpty then (none, none)
  else
    match alGet ftm jsonPath with
    | some t => (some t, none)
    | none =>
      match alGet ftm (stripIndexMarkers jsonPath) with
      | some t => (some t, none)
      | none =>
        let parts := pySplit jsonPath '.'
        let step3 : Option (TypeInfo × String) :=
          (downRange parts.length).findSome? (fun i =>
            let parentPath := String.intercalate "." (parts.take i)
            let parentHit : Option (TypeInfo × String) :=
              match alGet ftm parentPath with
              | some pti => if pti.type = "radio" then some (pti, parentPath) else none
              | none => none
            match parentHit with
            | some r => some r
            | none =>
              let childPath := String.intercalate "." (parts.take (i + 1))
              match alGet ftm childPath with
              | some cti => if cti.type = "radio" then some (cti, parentPath) else none
              | none => none)
        match step3 with
        | some (t, rpp) => (some t, some rpp)
        | none =>
          let fieldName := (parts.getLast?).getD ""
          match ftm.find? (fun p => p.2.type = "radio" ∧
              (pyEndsWith p.1 ("." ++ fieldName) ∨ pyEndsWith p.1 ("/" ++ fieldName))) with
          | some p => (some p.2, none)
          | none => (none, none)

/-- `RadioButtonList` update below a resolved parent node: set the text
of the first such child, creating it when absent (lines 472-490). -/
def rblApply (finalValue : String) (parentNode : XElem) : XElem :=
  match (parentNode.children.enum.find? (fun p => p.2.tag = "RadioButtonList")) with
  | some (j, c) => replaceChildAt parentNode j (setTextEl c finalValue)
  | none => appendChild parentNode (.mk "RadioButtonList" [] finalValue [])

/-- Scalar-leaf branch of `_traverse_json_to_xfa` (lines 300-624),
covering the `RadioButtonList` rewrite for individually-bound radio
fields, the exclGroup option selection with its case variants, and the
plain `set_node` write. -/
def tScalar (baseTag : String) (fxm : List (String × String))
    (ftm : List (String × TypeInfo)) (form : XElem) (jsonPath : String)
    (value : Json) : XElem :=
  let xfaPath :=
    match findMatchingXpath jsonPath fxm baseTag with
    | some x => x
    | none => jsonPathToXfaPath jsonPath baseTag (some fxm)
  let (fti?, radioParentPath?) := resolveFieldTypeInfo ftm jsonPath
  match fti? with
  | some fti =>
    if fti.type = "radio" then
      let options := fti.options
      let isIndividualField := ¬fxm.isEmpty ∧ (alGet fxm jsonPath).isSome
      if isIndividualField then
        let converted := convertValueForField (jsonScalarToStr value) (some fti)
        let finalValue :=
          if options.isEmpty then converted
          else
            match (if converted ≠ "" then pyInt converted else some (-1)) with
            | some i =>
              if 1 ≤ i ∧ i ≤ (options.length : Int) then toString i
              else if 0 ≤ i ∧ i < (options.length : Int) then toString (i + 1)
              else converted
            | none =>
              if options.contains converted then
                match idxOfStr options converted with
                | some j => toString (j + 1)
                | none => converted
              else converted
        let parentPath0 := String.intercalate "/" ((pySplit xfaPath '/').dropLast)
        let parentPath :=
          if pyStartsWith parentPath0 "./" then parentPath0 else "./" ++ parentPath0
        let parts := (pySplit (removeDotSlash parentPath) '/').filter (fun p => p ≠ "")
        match setNodeM1 form parts (rblApply finalValue) with
        | some form' => form'
        | none => form
      else if ¬options.isEmpty then
        let xfaPath2 :=
          match radioParentPath? with
          | some rpp =>
            match findMatchingXpath rpp fxm baseTag with
            | some px => px
            | none => jsonPathToXfaPath rpp baseTag (some fxm)
          | none => xfaPath
        let converted := convertValueForField (jsonScalarToStr value) (some fti)
        let selected? : Option String :=
          match (if converted ≠ "" then pyInt converted else some (-1)) with
          | some i =>
            if 1 ≤ i ∧ i ≤ (options.length : Int) then options.get? (i.toNat - 1)
            else if 0 ≤ i ∧ i < (options.length : Int) then options.get? i.toNat
            else none
          | none =>
            if options.contains converted then some converted
            else
              let vmap : List (String × String) :=
                [("Y", "Yes"), ("N", "No"), ("1", "Yes"), ("0", "No")]
              match alGet vmap converted with
              | some m =>
                if options.contains m then some m
                else options.find? (fun o => pyLower o = pyLower converted)
              | none => options.find? (fun o => pyLower o = pyLower converted)
        match selected? with
        | some sel =>
          let form1 := setNode form (xfaPath2 ++ "/" ++ sel) "1"
          let form2 := options.foldl (fun fm opt =>
            if opt ≠ sel ∧ pyLower opt = pyLower sel then
              setNode fm (xfaPath2 ++ "/" ++ opt) "1"
            else fm) form1
          let optionLower := lowerFirst sel
          let form3 :=
            if optionLower ≠ "" ∧ optionLower ≠ sel then
              setNode form2 (xfaPath2 ++ "/" ++ optionLower) "1"
            else form2
          let optionNoSpace := pyRemoveChar sel ' '
          let form4 :=
            if optionNoSpace ≠ sel then setNode form3 (xfaPath2 ++ "/" ++ optionNoSpace) "1"
            else form3
          let optionAllLower := pyLower sel
          let form5 :=
            if optionAllLower ≠ sel then setNode form4 (xfaPath2 ++ "/" ++ optionAllLower) "1"
            else form4
          if isIndividualField then
            match idxOfStr options sel with
            | some j => setNode form5 xfaPath2 (toString (j + 1))
            | none => setNode form5 xfaPath2 converted
          else form5
        | none => setNode form xfaPath2 converted
      else
        setNode form xfaPath (convertValueForField (jsonScalarToStr value) (some fti))
    else
      setNode form xfaPath (convertValueForField (jsonScalarToStr value) (some fti))
  | none => setNode form xfaPath (convertValueForField (jsonScalarToStr value) none)

mutual

/-- Dispatch of `_traverse_json_to_xfa` on one JSON value: dicts
recurse, lists go through the array branch (with the outer type-info
lookup of lines 263-267), scalars through `tScalar`. -/
def tJsonVal (baseTag : String) (fxm : List (String × String))
    (ftm : List (String × TypeInfo)) (jsonPath : String) (form : XElem) :
    Json → XElem
  | .obj o => tObjEntries baseTag fxm ftm form jsonPath o
  | .arr items =>
    let outerFti : Option TypeInfo :=
      match alGet ftm jsonPath with
      | some t => some t
      | none => alGet ftm (stripIndexMarkers jsonPath)
    tArrItems baseTag fxm ftm jsonPath outerFti 0 form items
  | other => tScalar baseTag fxm ftm form jsonPath other

/-- `app/services/pdf_filler_service.py`, `_traverse_json_to_xfa`: walk
the input JSON object, recursing into dicts and lists and writing every
scalar leaf through `tScalar`/`setNode`. -/
def tObjEntries (baseTag : String) (fxm : List (String × String))
    (ftm : List (String × TypeInfo)) (form : XElem) (currentPath : String) :
    List (String × Json) → XElem
  | [] => form
  | (key, value) :: rest =>
    let jsonPath := if currentPath ≠ "" then currentPath ++ "." ++ key
      else baseTag ++ "." ++ key
    let form' := tJsonVal baseTag fxm ftm jsonPath form value
    tObjEntries baseTag fxm ftm form' currentPath rest

/-- Array branch of `_traverse_json_to_xfa` (lines 261-299): dict items
recurse with the indexed path, scalar items are written through the
matched (or index-stripped fallback) path. -/
def tArrItems (baseTag : String) (fxm : List (String × String))
    (ftm : List (String × TypeInfo)) (jsonPath : String)
    (outerFti : Option TypeInfo) (i : Nat) (form : XElem) : List Json → XElem
  | [] => form
  | item :: rest =>
    let arrayPath := jsonPath ++ "[" ++ toString i ++ "]"
    let form' : XElem :=
      match item with
      | .obj o => tJsonVal baseTag fxm ftm arrayPath form (.obj o)
      | other =>
        let xfaPath :=
          match findMatchingXpath arrayPath fxm baseTag with
          | some x => x
          | none => jsonPathToXfaPath (stripIndexMarkers jsonPath) baseTag (some fxm)
        let afi : Option TypeInfo :=
          if ftm.isEmpty then outerFti
          else
            match alGet ftm arrayPath with
            | some t => some t
            | none => alGet ftm (stripIndexMarkers arrayPath)
        setNode form xfaPath (convertValueForField (jsonScalarToStr other) afi)
    tArrItems baseTag fxm ftm jsonPath outerFti (i + 1) form' rest

end

/-- Entry point of the fill traversal with the full dotted path rooted
at the base tag (`_traverse_json_to_xfa(form, data, base, base, ...)`
as called by `_set_form_from_json`). -/
def traverseJsonToXfa (baseTag : String) (fxm : List (String × String))
    (ftm : List (String × TypeInfo)) (form : XElem)
    (data : List (String × Json)) : XElem :=
  tObjEntries baseTag fxm ftm form baseTag data

/-! ## pdf_filler_service: _fill_unbound_template_fields -/

/-- `pdf_filler_service._get_value_by_full_json_path`: dotted descent
through dicts only, returning only simple values. -/
def getValueByFullJsonPath (data : Json) (fullPath : String) : Option String :=
  let descend : Json → List String → Option Json := fun j parts =>
    parts.foldl (fun cur? p =>
      match cur? with
      | some (.obj fs) => alGet fs p
      | _ => none) (some j)
  match descend data (pySplit fullPath '.') with
  | some (.s v) => some v
  | _ => none

/-- Unreachable write of `_fill_unbound_template_fields` (lines
1426-1464): look up the dotted path in the input JSON and set the
field's direct `value/text` child, creating the elements when absent. -/
def fubFieldWrite (data : Json) (fullPathParts : List String) (child : XElem) : XElem :=
  match getValueByFullJsonPath data (String.intercalate "." fullPathParts) with
  | none => child
  | some val =>
    if val = "" then child
    else
      match child.children.enum.find? (fun p => p.2.tag = "value") with
      | some (j, ve) =>
        let ve' :=
          match ve.children.enum.find? (fun p => p.2.tag = "text") with
          | some (k, te) => replaceChildAt ve k (setTextEl te val)
          | none => appendChild ve (.mk "text" [] val [])
        replaceChildAt child j ve'
      | none =>
        appendChild child (.mk "value" [] "" [.mk "text" [] val []])

mutual

/-- The walk of `_fill_unbound_template_fields`.  For every `field`
with an allowed bind, `parent = child.getparent()` is the walked node
and never `None`, so the misplaced `continue` of the exclGroup check
skips the field unconditionally; the write branch is kept for the
impossible `None` parent. -/
def fubWalk (data : Json) : XElem → List String → XElem
  | .mk t a x c, segs => .mk t a x (fubWalkList data c segs)

/-- Child loop of `fubWalk`. -/
def fubWalkList (data : Json) : List XElem → List String → List XElem
  | [], _ => []
  | child :: rest, segs =>
    let child' : XElem :=
      if child.tag = "subform" then
        match nameAttr child with
        | some nm => fubWalk data child (segs ++ [nm])
        | none => fubWalk data child segs
      else if child.tag = "field" then
        match nameAttr child with
        | none => child
        | some fname =>
          let bindEl := (descendantsWithTag child "bind").head?
          let matchv : Option String :=
            match bindEl with
            | some b => b.getAttr "match"
            | none => none
          if matchv ≠ none ∧ matchv ≠ some "none" then child
          else
            match (some () : Option Unit) with
            | some _ => child
            | none => fubFieldWrite data (segs ++ [fname]) child
      else fubWalk data child segs
    child' :: fubWalkList data rest segs

end

mutual

/-- Rewrite the first named `subform` descendant (the `base_sub` of
`_fill_unbound_template_fields`) in place. -/
def replaceFirstNamedSubformElem (f : XElem → String → XElem) : XElem → Option XElem
  | .mk t a x c =>
    if t = "subform" then
      match nameAttr (.mk t a x c) with
      | some nm => some (f (.mk t a x c) nm)
      | none =>
        match replaceFirstNamedSubformList f c with
        | some c' => some (.mk t a x c')
        | none => none
    else
      match replaceFirstNamedSubformList f c with
      | some c' => some (.mk t a x c')
      | none => none

/-- Sibling-list version of `replaceFirstNamedSubformElem`. -/
def replaceFirstNamedSubformList (f : XElem → String → XElem) :
    List XElem → Option (List XElem)
  | [] => none
  | c :: rest =>
    match replaceFirstNamedSubformElem f c with
    | some c' => some (c' :: rest)
    | none =>
      match replaceFirstNamedSubformList f rest with
      | some rest' => some (c :: rest')
      | none => none

end

/-- `app/services/pdf_filler_service.py`,
`_fill_unbound_template_fields`: walk the template's base subform and
fill unbound fields from the input JSON.  Returns the template tree
that is written back (`none` when nothing is written: template stream
or base subform absent). -/
def fillUnboundTemplateFields (doc : PdfDoc) (data : Json) :
    Except String (Option XElem) := do
  let template? ← readTemplateFromPdf doc
  match template? with
  | none => .ok none
  | some root =>
    match replaceFirstNamedSubformList
        (fun baseSub baseTag => fubWalk data baseSub [baseTag]) root.children with
    | some c' => .ok (some (.mk root.tag root.attrs root.text c'))
    | none => .ok none


/-! ## Exact-leaf-slot predicate for preservation statements -/

/-- A `(tag, idx)` path addresses an exact leaf slot of a JSON template:
every plain segment resolves to an existing dict key, every indexed
segment to an existing array slot, intermediate values are dicts and the
final value is a scalar.  This is the shape `_build_field_template`
guarantees for the paths it writes, and the precondition under which a
`preserve_structure` write of `_set_value_in_nested` is a pure overwrite. -/
def isLeafSlot : Json → List (String × Int) → Bool
  | _, [] => false
  | cur, (tag, idx) :: rest =>
    match cur with
    | .obj fs =>
      if idx ≥ 0 then
        match alGet fs tag with
        | some (.arr items) =>
          match items.get? idx.toNat with
          | some item => if rest.isEmpty then item.isScalar else isLeafSlot item rest
          | none => false
        | _ => false
      else
        match alGet fs tag with
        | some v => if rest.isEmpty then v.isScalar else isLeafSlot v rest
        | none => false
    | _ => false

/-! ## Concrete documents used to exercise the pipelines -/

/-- Dataset packet whose base node `F` holds a mixed-content element:
`A` has non-blank text and an element child `B`. -/
def dsA : XElem :=
  .mk "datasets" [] "" [.mk "data" [] "" [.mk "F" [] "" [.mk "A" [] "123" [.mk "B" [] "" []]]]]

/-- Form packet for `dsA` with a single named subform and no fields. -/
def formA : XElem := .mk "form" [] "" [.mk "subform" [("name", "F")] "" []]

/-- Document with a mixed-content dataset leaf. -/
def docA : PdfDoc := ⟨some (some (.array [("datasets", dsA), ("form", formA)]))⟩

/-- A form-tree `KeepPageSeparate` field whose value text is `v`. -/
def kpsField (v : String) : XElem :=
  .mk "field" [("name", "KeepPageSeparate")] "" [.mk "value" [] "" [.mk "text" [] v []]]

/-- Dataset packet for the repeated-field document. -/
def ds2 : XElem :=
  .mk "datasets" [] ""
    [.mk "data" [] "" [.mk "F" [] "" [.mk "Page1" [] "" [.mk "Name" [] "x" []]]]]

/-- Form packet with two `KeepPageSeparate` fields under `Page1`. -/
def form2 : XElem :=
  .mk "form" [] ""
    [.mk "subform" [("name", "F")] ""
      [.mk "subform" [("name", "Page1")] "" [kpsField "1", kpsField "1"]]]

/-- Document whose form tree repeats the path `Page1.KeepPageSeparate`. -/
def doc2 : PdfDoc := ⟨some (some (.array [("datasets", ds2), ("form", form2)]))⟩

/-- Dataset base node with three distinct leaves whose dotted keys all
render as `A.B.C` (element tags may contain dots). -/
def dupBase : XElem :=
  .mk "F" [] ""
    [.mk "A" [] "" [.mk "B.C" [] "x" []],
     .mk "A.B" [] "" [.mk "C" [] "x" []],
     .mk "A.B.C" [] "x" []]

/-- Dataset subtree with two text-bearing leaves, fill target of the
traversal examples. -/
def formC : XElem := .mk "F" [] "" [.mk "A" [] "old" [], .mk "B" [] "keep" []]

/-- Template field with no `bind` element (an unbound field). -/
def telField : XElem := .mk "field" [("name", "TelephoneNo")] "" []

/-- Template packet holding `telField` under the base subform `F`. -/
def tmplRoot : XElem :=
  .mk "template" [] ""
    [.mk "subform" [("name", "F")] "" [.mk "subform" [("name", "Page1")] "" [telField]]]

/-- Document carrying only the template packet. -/
def docT : PdfDoc := ⟨some (some (.array [("template", tmplRoot)]))⟩

/-- Fill input holding a non-empty value at `telField`'s dotted path. -/
def fillData : Json :=
  .obj [("F", .obj [("Page1", .obj [("TelephoneNo", .s "555-1234")])])]

/-- Template field with a `dateTimeEdit` ui and picture `time\x7bh:MM\x7d`. -/
def dateTimeField : XElem :=
  .mk "field" [("name", "D")] ""
    [.mk "ui" [] "" [.mk "dateTimeEdit" [] "" []],
     .mk "format" [] "" [.mk "picture" [] "time\x7bh:MM\x7d" []]]

/-- The tail of the repeated `Page1.KeepPageSeparate` form path. -/
def kpsTail : List String := ["Page1", "KeepPageSeparate"]

/-- Prefix counts of the doubled `KeepPageSeparate` tail. -/
def kpsPC : List (List String × Nat) := countPrefixes [kpsTail, kpsTail]

/-- Path counts of the doubled `KeepPageSeparate` tail. -/
def kpsCnt : List (List String × Nat) := countTails [kpsTail, kpsTail]

/-- Schema value extracted from `docA` (used to instantiate theorems at a
concrete document). -/
def schA : Json :=
  match extractFieldsFromPdf docA with
  | .ok j => j
  | .error _ => Json.null

/-- Type-descriptor value extracted from `docA`. -/
def tyA : Json :=
  match extractFieldTypes docA with
  | .ok j => j
  | .error _ => Json.null

/-- A small template with a plain leaf and a two-slot array. -/
def tplW : Json :=
  Json.obj [("Page1", Json.obj [("Name", Json.s ""), ("Arr", Json.arr [Json.s "", Json.s ""])])]


/-! ## Theorems -/

mutual

/-- Every field branch of the `_fill_unbound_template_fields` walk
returns the child unchanged, so the walk is the identity. -/
theorem fubWalk_id (data : Json) : ∀ (e : XElem) (segs : List String),
    fubWalk data e segs = e
  | .mk t a x c, segs => by
    simp only [fubWalk]
    rw [fubWalkList_id data c segs]

/-- Sibling-list version of `fubWalk_id`. -/
theorem fubWalkList_id (data : Json) : ∀ (l : List XElem) (segs : List String),
    fubWalkList data l segs = l
  | [], _ => rfl
  | child :: rest, segs => by
    simp only [fubWalkList]
    rw [fubWalkList_id data rest segs]
    by_cases h1 : child.tag = "subform"
    · simp only [if_pos h1]
      cases nameAttr child <;> simp [fubWalk_id data child]
    · simp only [if_neg h1]
      by_cases h2 : child.tag = "field"
      · simp only [if_pos h2]
        cases nameAttr child
        · rfl
        · simp only []
          split <;> rfl
      · simp only [if_neg h2]
        rw [fubWalk_id data child segs]

end

/-- C5: the fill engine never writes unbound template fields: the walk is
the identity, and on a concrete template whose field `TelephoneNo` has no
`bind` element, is outside any `exclGroup`, and whose dotted path holds
the non-empty input value `555-1234`, `_fill_unbound_template_fields`
returns the template tree unchanged (no `value/text` element created). -/
theorem C5_unbound_fill_noop :
    (∀ (data : Json) (e : XElem) (segs : List String), fubWalk data e segs = e) ∧
    fillUnboundTemplateFields docT fillData = .ok (some tmplRoot) ∧
    getValueByFullJsonPath fillData "F.Page1.TelephoneNo" = some "555-1234" ∧
    descendantsWithTag telField "bind" = [] ∧
    descendantsWithTag tmplRoot "exclGroup" = [] :=
  ⟨fubWalk_id, rfl, rfl, rfl, rfl⟩

/-- C6 counterexample: filling `formC` with the single null leaf `A`
clears the text of node `A` from `"old"` to `""` (null is rendered as the
empty string and written through `set_node`), contradicting the claim
that null leaves leave the node text unchanged. -/
theorem C6_counterexample :
    traverseJsonToXfa "F" [("F.A", "./A")] [] formC [("A", Json.null)]
      = XElem.mk "F" [] "" [XElem.mk "A" [] "" [], XElem.mk "B" [] "keep" []] ∧
    formC = XElem.mk "F" [] "" [XElem.mk "A" [] "old" [], XElem.mk "B" [] "keep" []] ∧
    (XElem.mk "A" [] "" []).text ≠ (XElem.mk "A" [] "old" []).text ∧
    jsonScalarToStr Json.null = "" :=
  ⟨rfl, rfl, by decide, rfl⟩

/-- C6 (amended): a leaf absent from the fill input is never visited — an
empty input leaves the whole tree unchanged, and a node whose key is
missing keeps its text — but a null leaf is converted to `""` and written
through `set_node`, clearing the node's text instead of preserving it. -/
theorem C6_null_and_absent_handling :
    (∀ (baseTag : String) (fxm : List (String × String))
       (ftm : List (String × TypeInfo)) (form : XElem),
        traverseJsonToXfa baseTag fxm ftm form [] = form) ∧
    traverseJsonToXfa "F" [("F.A", "./A")] [] formC [("A", Json.null)]
      = XElem.mk "F" [] "" [XElem.mk "A" [] "" [], XElem.mk "B" [] "keep" []] :=
  ⟨fun _ _ _ _ => rfl, rfl⟩

/-- C7: `normalize_picture` maps `date\x7byyyymmdd\x7d` to `YYYYMMDD`,
discards the input mask `text\x7bA9A 9A9\x7d`, and a `dateTimeEdit` field
with picture `time\x7bh:MM\x7d` is classified `time` with normalized
format `H:MM`, which contains an hour/minute token. -/
theorem C7_picture_normalization :
    normalizePicture (some "date\x7byyyymmdd\x7d") = some "YYYYMMDD" ∧
    normalizePicture (some "text\x7bA9A 9A9\x7d") = none ∧
    parseUiAndFormat dateTimeField = ("time", some "H:MM") ∧
    hasTimeToken "H:MM" = true :=
  ⟨rfl, rfl, rfl, rfl⟩

/-- C8: on a dataset tree with three distinct leaves whose canonical
dotted keys all collide as `A.B.C`, the numeric-suffix disambiguation of
`_collect_leaf_fields` emits `A.B.C__2` twice (the occurrence counter is
stored under the renamed key, so a third repetition restarts at 2): the
`key_for_map` values are not pairwise distinct. -/
theorem C8_duplicate_suffix_collision :
    (collectLeafFields false dupBase).map PyField.key_for_map
      = ["A.B.C", "A.B.C__2", "A.B.C__2"] ∧
    ¬ (["A.B.C", "A.B.C__2", "A.B.C__2"] : List String).Nodup :=
  ⟨rfl, by decide⟩

/-- C1 counterexample: on `docA`, whose dataset node `A` has both
non-blank text and an element child `B`, schema extraction and type
extraction produce the leaf path `F.A.B` while value extraction
overwrites the dict at `A` with the mixed-content text, producing leaf
path `F.A`: the three leaf key-path sets are not identical. -/
theorem C1_counterexample :
    Except.map leafPaths (extractFieldsFromPdf docA) = .ok ["F.A.B"] ∧
    Except.map leafPaths (extractFieldValues docA) = .ok ["F.A"] ∧
    Except.map leafPaths (extractFieldTypes docA) = .ok ["F.A.B"] ∧
    (["F.A"] : List String) ≠ ["F.A.B"] :=
  ⟨rfl, rfl, rfl, by decide⟩

/-- C2 counterexample: on `doc2`, whose form tree repeats the path
`Page1.KeepPageSeparate`, the schema template has the single array slot
`F.Page1.KeepPageSeparate[0]` but value extraction emits the additional
slot `F.Page1.KeepPageSeparate[1]` (the out-of-range indexed write of
`_set_value_in_nested` extends the array even under
`preserve_structure`): value fill adds an array slot. -/
theorem C2_counterexample :
    Except.map leafPaths (extractFieldsFromPdf doc2)
      = .ok ["F.Page1.Name", "F.Page1.KeepPageSeparate[0]"] ∧
    Except.map leafPaths (extractFieldValues doc2)
      = .ok ["F.Page1.Name", "F.Page1.KeepPageSeparate[0]", "F.Page1.KeepPageSeparate[1]"] ∧
    ¬ "F.Page1.KeepPageSeparate[1]" ∈ (["F.Page1.Name", "F.Page1.KeepPageSeparate[0]"] : List String) :=
  ⟨rfl, rfl, by decide⟩

/-- C4 counterexample: for the doubled tail `Page1.KeepPageSeparate`, the
schema-side merge loop of `_build_field_template` takes the
`KeepPageSeparate` special case and maps both occurrences to array index
0 (one slot), while `build_path_with_array_indices` assigns the generic
running occurrence indices 0 and 1: the two sites do not produce the
same assignment. -/
theorem C4_counterexample :
    (processTail [] kpsCnt kpsPC
        (processTail [] kpsCnt kpsPC ⟨Json.obj [], [], []⟩ kpsTail) kpsTail).tpl
      = Json.obj [("Page1", Json.obj [("KeepPageSeparate", Json.arr [Json.s ""])])] ∧
    (buildPathWithArrayIndices "F" kpsPC kpsCnt [] ["F", "Page1"] "KeepPageSeparate").1
      = "F.Page1.KeepPageSeparate[0]" ∧
    (buildPathWithArrayIndices "F" kpsPC kpsCnt
        (buildPathWithArrayIndices "F" kpsPC kpsCnt [] ["F", "Page1"] "KeepPageSeparate").2
        ["F", "Page1"] "KeepPageSeparate").1
      = "F.Page1.KeepPageSeparate[1]" ∧
    ("F.Page1.KeepPageSeparate[1]" : String) ≠ "F.Page1.KeepPageSeparate[0]" :=
  ⟨rfl, rfl, rfl, by decide⟩

/-- C3 counterexample: the value-extraction radio decode resolves a
numeric string 0-based first: with options `[A, B]` the value `"1"`
decodes to `options[1] = "B"`, not to `options[1-1] = "A"` as the claim
states; the fill-side `_convert_value_for_field` resolves 1-based first
and returns `"A"`, so the two decoders also disagree. -/
theorem C3_counterexample :
    decodeRadioExtract ["A", "B"] "1" = "B" ∧
    (["A", "B"] : List String).get? (1 - 1) = some "A" ∧
    ("B" : String) ≠ "A" ∧
    convertValueForField "1"
      (some { type := "radio", format := none, options := ["A", "B"], value_map := [] }) = "A" :=
  ⟨rfl, rfl, by decide, rfl⟩

/-- Rendered segments of the schema-side generic assignment loop equal
the value-side segments, position by position. -/
theorem genericAssignGo_agrees (tail : List String) (pc : List (List String × Nat))
    (cidx : Nat) : ∀ (l : List String) (i : Nat) (added : Bool),
    (genericAssignGo tail pc cidx i added l).map renderSeg
      = valueAssignGo tail pc cidx i added l := by
  intro l
  induction l with
  | nil => intro i added; rfl
  | cons tag rest ih =>
    intro i added
    simp only [genericAssignGo, valueAssignGo]
    split_ifs with h1 h2 <;>
      simp [renderSeg, ih, Int.toNat_natCast]

/-- C4 (amended): inside the generic repeated-path branch the two sites
agree — the boundary rule (index at the first position whose length-i
prefix is unique while the length-(i+1) prefix repeats, else the final
segment) with the 0-based running occurrence index produces identical
rendered segments in `_build_field_template` and in
`build_path_with_array_indices`; single-occurrence paths agree trivially.
(Tails caught by the `Page1.KeepPageSeparate` special case bypass this
rule on the schema side only.) -/
theorem C4_generic_assignment_agreement :
    (∀ (tail : List String) (pc : List (List String × Nat)) (cidx : Nat),
        (genericAssign tail pc cidx).map renderSeg
          = valueAssignGo tail pc cidx 0 false tail) ∧
    (∀ (tail : List String),
        (tail.map (fun t => (t, (-1 : Int)))).map renderSeg = tail) := by
  constructor
  · intro tail pc cidx
    exact genericAssignGo_agrees tail pc cidx tail 0 false
  · intro tail
    induction tail with
    | nil => rfl
    | cons t rest ih => simp [renderSeg, ih]

/-- C10: `_convert_value_for_field` returns the value unchanged whenever
the descriptor is absent, the value is empty, the type is not `radio`,
or the options list is empty — decoding is attempted only for radio
fields with a non-empty options list. -/
theorem C10_convert_identity (value : String) (info : Option TypeInfo)
    (h : info = none ∨ value = "" ∨
      (∃ ti, info = some ti ∧ ti.type ≠ "radio") ∨
      (∃ ti, info = some ti ∧ ti.options = [])) :
    convertValueForField value info = value := by
  rcases h with rfl | rfl | ⟨ti, rfl, ht⟩ | ⟨ti, rfl, ho⟩
  · rfl
  · cases info with
    | none => rfl
    | some ti => simp [convertValueForField]
  · by_cases hv : value = ""
    · simp [convertValueForField, hv]
    · simp [convertValueForField, hv, ht]
  · by_cases hv : value = ""
    · simp [convertValueForField, hv]
    · simp [convertValueForField, hv, ho]

/-- Witness for `C10_convert_identity` at a text descriptor. -/
theorem C10_witness :
    convertValueForField "hello"
      (some { type := "text", format := none, options := ["x"], value_map := [] }) = "hello" :=
  C10_convert_identity "hello" _ (Or.inr (Or.inr (Or.inl ⟨_, rfl, by decide⟩)))

/-- C9: a document whose XFA array has no `datasets`-named part (and one
with no XFA entry at all) makes `read_datasets_from_pdf` raise, while a
missing `template`-named part or `form`-named part is tolerated: the
template reader returns `None` and the part reader returns `None`
without raising. -/
theorem C9_dataset_stream_mandatory :
    (∀ (parts : List (String × XElem)), (∀ p ∈ parts, pyLower p.1 ≠ "datasets") →
        readDatasetsFromPdf ⟨some (some (.array parts))⟩
          = .error "datasets packet not found in XFA array") ∧
    (∀ (doc : PdfDoc), doc.acroForm = none ∨ doc.acroForm = some none →
        readDatasetsFromPdf doc = .error "XFA entry not found") ∧
    (∀ (parts : List (String × XElem)), (∀ p ∈ parts, pyLower p.1 ≠ "template") →
        readTemplateFromPdf ⟨some (some (.array parts))⟩ = .ok none) ∧
    (∀ (parts : List (String × XElem)), (∀ p ∈ parts, ¬ strContains (pyLower p.1) "form") →
        readXfaPartFromPdf ⟨some (some (.array parts))⟩ "form" = none) := by
  refine ⟨?_, ?_, ?_, ?_⟩
  · intro parts h
    have hf : parts.find? (fun p => pyLower p.1 = "datasets") = none := by
      rw [List.find?_eq_none]
      intro p hp
      simpa using h p hp
    have hu : readDatasetsFromPdf ⟨some (some (.array parts))⟩
        = match parts.find? (fun p => pyLower p.1 = "datasets") with
          | some p => Except.ok p.2
          | none => Except.error "datasets packet not found in XFA array" := rfl
    rw [hu, hf]
  · intro doc h
    rcases h with h | h <;>
    · obtain ⟨a⟩ := doc
      cases h
      rfl
  · intro parts h
    have hf : parts.find? (fun p => pyLower p.1 = "template") = none := by
      rw [List.find?_eq_none]
      intro p hp
      simpa using h p hp
    have hu : readTemplateFromPdf ⟨some (some (.array parts))⟩
        = match parts.find? (fun p => pyLower p.1 = "template") with
          | some p => Except.ok (some p.2)
          | none => Except.ok none := rfl
    rw [hu, hf]
  · intro parts h
    have hf : parts.find? (fun p => strContains (pyLower p.1) (pyLower "form")) = none := by
      rw [List.find?_eq_none]
      intro p hp
      simpa [show pyLower "form" = "form" from rfl] using h p hp
    have hu : readXfaPartFromPdf ⟨some (some (.array parts))⟩ "form"
        = match parts.find? (fun p => strContains (pyLower p.1) (pyLower "form")) with
          | some p => some p.2
          | none => none := rfl
    rw [hu, hf]

/-- Witness for `C9_dataset_stream_mandatory` at an XFA array holding
only a `config` part, and at a document with no AcroForm. -/
theorem C9_witness :
    readDatasetsFromPdf ⟨some (some (.array [("config", XElem.mk "config" [] "" [])]))⟩
      = .error "datasets packet not found in XFA array" ∧
    readDatasetsFromPdf ⟨none⟩ = .error "XFA entry not found" ∧
    readTemplateFromPdf ⟨some (some (.array [("config", XElem.mk "config" [] "" [])]))⟩
      = .ok none ∧
    readXfaPartFromPdf ⟨some (some (.array [("config", XElem.mk "config" [] "" [])]))⟩ "form"
      = none :=
  ⟨C9_dataset_stream_mandatory.1 _ (by intro p hp; simp at hp; subst hp; decide),
   C9_dataset_stream_mandatory.2.1 _ (Or.inl rfl),
   C9_dataset_stream_mandatory.2.2.1 _ (by intro p hp; simp at hp; subst hp; decide),
   C9_dataset_stream_mandatory.2.2.2 _ (by intro p hp; simp at hp; subst hp; decide)⟩

/-- A scalar JSON value contributes exactly its prefix as leaf path. -/
theorem leafPathsAux_scalar (j : Json) (hs : j.isScalar = true) :
    ∀ q, leafPathsAux j q = [q] := by
  cases j <;> simp [Json.isScalar] at hs ⊢ <;> intro q <;> rfl

/-- Overwriting an existing dict entry with a value of equal leaf-path
contribution preserves the dict's leaf key-paths. -/
theorem leafPathsObj_alSet : ∀ (fs : List (String × Json)) (tag : String) (u w : Json),
    alGet fs tag = some u → (∀ q, leafPathsAux w q = leafPathsAux u q) →
    ∀ p, leafPathsObj (alSet fs tag w) p = leafPathsObj fs p := by
  intro fs
  induction fs with
  | nil => intro tag u w hu hw p; simp [alGet] at hu
  | cons kv rest ih =>
    obtain ⟨k, v⟩ := kv
    intro tag u w hu hw p
    by_cases hk : k = tag
    · subst hk
      rw [alGet, if_pos rfl] at hu
      injection hu with hu
      subst hu
      rw [alSet, if_pos rfl]
      simp only [leafPathsObj]
      rw [hw]
    · rw [alGet, if_neg hk] at hu
      rw [alSet, if_neg hk]
      simp only [leafPathsObj]
      rw [ih tag u w hu hw p]

/-- Overwriting an existing array slot with a value of equal leaf-path
contribution preserves the array's leaf key-paths. -/
theorem leafPathsArr_set : ∀ (items : List Json) (n : Nat) (item w : Json) (i : Nat) (p : String),
    items.get? n = some item → (∀ q, leafPathsAux w q = leafPathsAux item q) →
    leafPathsArr (items.set n w) i p = leafPathsArr items i p := by
  intro items
  induction items with
  | nil => intro n item w i p h hw; simp at h
  | cons x rest ih =>
    intro n item w i p h hw
    cases n with
    | zero =>
      rw [List.get?] at h
      injection h with h
      subst h
      simp only [List.set, leafPathsArr]
      rw [hw]
    | succ m =>
      rw [List.get?] at h
      simp only [List.set, leafPathsArr]
      rw [ih m item w (i + 1) p h hw]

/-- A `preserve_structure` write of `_set_value_in_nested` at an exact
leaf slot succeeds and leaves the set of leaf key-paths of the template
unchanged. -/
theorem svnGo_leafSlot (v : String) : ∀ (path : List (String × Int)) (tpl : Json),
    isLeafSlot tpl path = true →
    (svnGo tpl path v true).1 = true ∧
    ∀ p, leafPathsAux (svnGo tpl path v true).2 p = leafPathsAux tpl p := by
  intro path
  induction path with
  | nil => intro tpl h; simp [isLeafSlot] at h
  | cons seg rest ih =>
    obtain ⟨tag, idx⟩ := seg
    intro tpl h
    cases tpl with
    | s sv => simp [isLeafSlot] at h
    | null => simp [isLeafSlot] at h
    | info ti => simp [isLeafSlot] at h
    | arr items => simp [isLeafSlot] at h
    | obj fs =>
      simp only [isLeafSlot] at h
      by_cases hidx : idx ≥ 0
      · rw [if_pos hidx] at h
        cases hget : alGet fs tag with
        | none => simp [hget] at h
        | some av =>
          simp only [hget] at h
          have hhas : alHas fs tag = true := by simp [alHas, hget]
          cases av with
          | s a => simp at h
          | null => simp at h
          | info a => simp at h
          | obj a => simp at h
          | arr items =>
            simp only [List.get?_eq_getElem?] at h
            cases hi : items[idx.toNat]? with
            | none => simp [hi] at h
            | some item =>
              simp only [hi] at h
              have hi' : items.get? idx.toNat = some item := by
                rw [List.get?_eq_getElem?]; exact hi
              have hlen : idx.toNat < items.length := (List.get?_eq_some.mp hi').1
              have hnotge : ¬ idx.toNat ≥ items.length := Nat.not_le.mpr hlen
              cases rest with
              | nil =>
                simp only [List.isEmpty_nil, if_true] at h
                constructor
                · simp [svnGo, hidx, hget, hhas, hnotge]
                · intro p
                  have hred : (svnGo (Json.obj fs) [(tag, idx)] v true).2
                      = .obj (alSet fs tag (.arr (items.set idx.toNat (Json.s v)))) := by
                    simp [svnGo, hidx, hget, hhas, hnotge]
                  rw [hred]
                  simp only [leafPathsAux]
                  refine leafPathsObj_alSet fs tag (.arr items) _ hget ?_ p
                  intro q
                  simp only [leafPathsAux]
                  refine leafPathsArr_set items idx.toNat item (.s v) 0 q hi' ?_
                  intro q'
                  rw [leafPathsAux_scalar item h q']
                  rfl
              | cons seg2 rest2 =>
                simp only [List.isEmpty_cons, if_false] at h
                cases item with
                | s a => simp [isLeafSlot] at h
                | null => simp [isLeafSlot] at h
                | info a => simp [isLeafSlot] at h
                | arr a => simp [isLeafSlot] at h
                | obj o =>
                  have hih := ih (.obj o) h
                  rcases hsv : svnGo (.obj o) (seg2 :: rest2) v true with ⟨ok, sub⟩
                  rw [hsv] at hih
                  constructor
                  · have hred : (svnGo (Json.obj fs) ((tag, idx) :: seg2 :: rest2) v true).1 = ok := by
                      rw [svnGo]
                      simp [hidx, hget, hhas, hnotge, hi, hsv]
                    rw [hred]
                    exact hih.1
                  · intro p
                    have hred : (svnGo (Json.obj fs) ((tag, idx) :: seg2 :: rest2) v true).2
                        = .obj (alSet fs tag (.arr (items.set idx.toNat sub))) := by
                      rw [svnGo]
                      simp [hidx, hget, hhas, hnotge, hi, hsv]
                    rw [hred]
                    simp only [leafPathsAux]
                    refine leafPathsObj_alSet fs tag (.arr items) _ hget ?_ p
                    intro q
                    simp only [leafPathsAux]
                    refine leafPathsArr_set items idx.toNat (.obj o) sub 0 q hi' ?_
                    intro q'
                    exact hih.2 q'
      · rw [if_neg hidx] at h
        cases hget : alGet fs tag with
        | none => simp [hget] at h
        | some u =>
          simp only [hget] at h
          have hhas : alHas fs tag = true := by simp [alHas, hget]
          cases rest with
          | nil =>
            simp only [List.isEmpty_nil, if_true] at h
            constructor
            · simp [svnGo, hidx, hhas]
            · intro p
              have hred : (svnGo (Json.obj fs) [(tag, idx)] v true).2
                  = .obj (alSet fs tag (Json.s v)) := by
                simp [svnGo, hidx, hhas]
              rw [hred]
              simp only [leafPathsAux]
              refine leafPathsObj_alSet fs tag u (.s v) hget ?_ p
              intro q
              rw [leafPathsAux_scalar u h q]
              rfl
          | cons seg2 rest2 =>
            simp only [List.isEmpty_cons, if_false] at h
            cases u with
            | s a => simp [isLeafSlot] at h
            | null => simp [isLeafSlot] at h
            | info a => simp [isLeafSlot] at h
            | arr a => simp [isLeafSlot] at h
            | obj o =>
              have hih := ih (.obj o) h
              rcases hsv : svnGo (.obj o) (seg2 :: rest2) v true with ⟨ok, sub⟩
              rw [hsv] at hih
              constructor
              · have hred : (svnGo (Json.obj fs) ((tag, idx) :: seg2 :: rest2) v true).1 = ok := by
                  rw [svnGo]
                  simp [hidx, hget, hhas, hsv]
                rw [hred]
                exact hih.1
              · intro p
                have hred : (svnGo (Json.obj fs) ((tag, idx) :: seg2 :: rest2) v true).2
                    = .obj (alSet fs tag sub) := by
                  rw [svnGo]
                  simp [hidx, hget, hhas, hsv]
                rw [hred]
                simp only [leafPathsAux]
                refine leafPathsObj_alSet fs tag (.obj o) sub hget ?_ p
                intro q
                exact hih.2 q

/-- C2 (amended): a `preserve_structure` value write at a path that is an
exact leaf slot of the schema template succeeds and preserves the set of
leaf key-paths (including every array length); but an indexed write
whose index is at or beyond the template array's length extends the
array in place even under `preserve_structure`, so value extraction can
emit more array slots than the schema (see the `doc2` counterexample). -/
theorem C2_leaf_slot_preservation (tpl : Json) (path : List (String × Int))
    (v : String) (p : String) (h : isLeafSlot tpl path = true) :
    (svnGo tpl path v true).1 = true ∧
    leafPathsAux (svnGo tpl path v true).2 p = leafPathsAux tpl p :=
  ⟨(svnGo_leafSlot v path tpl h).1, (svnGo_leafSlot v path tpl h).2 p⟩

/-- Witness for `C2_leaf_slot_preservation`: writing `9` at the existing
array slot `Page1.Arr[1]` of `tplW`. -/
theorem C2_witness :
    (svnGo tplW [("Page1", -1), ("Arr", 1)] "9" true).1 = true ∧
    leafPathsAux (svnGo tplW [("Page1", -1), ("Arr", 1)] "9" true).2 "F"
      = leafPathsAux tplW "F" :=
  C2_leaf_slot_preservation tplW [("Page1", -1), ("Arr", 1)] "9" "F" (by decide)

mutual

/-- The type-walk of `walk_template_and_set_types` replaces scalar leaves
by descriptor leaves and keeps the leaf key-path set of any JSON value. -/
theorem wtJson_leafPaths (g : String → TypeInfo) (b : String) :
    ∀ (j : Json) (cp : List String) (p : String),
      leafPathsAux (wtJson g b cp j).1 p = leafPathsAux j p
  | .obj fs, cp, p => by
    have h := wtObjList_leafPaths g b fs cp p
    rcases hw : wtObjList g b cp fs with ⟨fs2, m⟩
    simp only [hw] at h
    simp only [wtJson, hw, leafPathsAux]
    exact h
  | .arr items, cp, p => by
    have h := wtArrItems_leafPaths g b items cp 0 0 p
    rcases hw : wtArrItems g b cp 0 items with ⟨items2, m⟩
    simp only [hw] at h
    simp only [wtJson, hw, leafPathsAux]
    exact h
  | .s v, cp, p => rfl
  | .null, cp, p => rfl
  | .info ti, cp, p => rfl

/-- Entry-list version of `wtJson_leafPaths`. -/
theorem wtObjList_leafPaths (g : String → TypeInfo) (b : String) :
    ∀ (fs : List (String × Json)) (cp : List String) (p : String),
      leafPathsObj (wtObjList g b cp fs).1 p = leafPathsObj fs p
  | [], cp, p => rfl
  | (k, v) :: rest, cp, p => by
    have hrest := wtObjList_leafPaths g b rest cp p
    rcases hwr : wtObjList g b cp rest with ⟨rest2, m2⟩
    simp only [hwr] at hrest
    match v with
    | .obj o =>
      have hv := wtJson_leafPaths g b (.obj o) (cp ++ [k]) (p ++ "." ++ k)
      rcases hw2 : wtObjList g b (cp ++ [k]) o with ⟨o2, mo⟩
      have hv2 : (wtJson g b (cp ++ [k]) (Json.obj o)).1 = Json.obj o2 := by
        simp only [wtJson, hw2]
      rw [hv2] at hv
      simp only [wtObjList, hwr, hw2, leafPathsObj]
      rw [hv, hrest]
    | .arr items =>
      have hv := wtArrItems_leafPaths g b items (cp ++ [k]) 0 0 (p ++ "." ++ k)
      rcases hw2 : wtArrItems g b (cp ++ [k]) 0 items with ⟨items2, mo⟩
      simp only [hw2] at hv
      simp only [wtObjList, hwr, hw2, leafPathsObj, leafPathsAux]
      rw [hv, hrest]
    | .s a =>
      simp only [wtObjList, hwr, leafPathsObj, leafPathsAux]
      rw [hrest]
    | .null =>
      simp only [wtObjList, hwr, leafPathsObj, leafPathsAux]
      rw [hrest]
    | .info ti =>
      simp only [wtObjList, hwr, leafPathsObj, leafPathsAux]
      rw [hrest]

/-- Item-list version of `wtJson_leafPaths`; the walk index `i` and the
leaf-path index `j` are independent. -/
theorem wtArrItems_leafPaths (g : String → TypeInfo) (b : String) :
    ∀ (items : List Json) (cp : List String) (i j : Nat) (p : String),
      leafPathsArr (wtArrItems g b cp i items).1 j p = leafPathsArr items j p
  | [], cp, i, j, p => rfl
  | item :: rest, cp, i, j, p => by
    have hrest := wtArrItems_leafPaths g b rest cp (i + 1) (j + 1) p
    rcases hwr : wtArrItems g b cp (i + 1) rest with ⟨rest2, m2⟩
    simp only [hwr] at hrest
    match item with
    | .obj o =>
      have hv := wtJson_leafPaths g b (.obj o) cp (p ++ "[" ++ toString j ++ "]")
      rcases hw2 : wtObjList g b cp o with ⟨o2, mo⟩
      have hv2 : (wtJson g b cp (Json.obj o)).1 = Json.obj o2 := by
        simp only [wtJson, hw2]
      rw [hv2] at hv
      simp only [wtArrItems, hwr, hw2, leafPathsArr]
      rw [hv, hrest]
    | .arr a =>
      have hv := wtJson_leafPaths g b (.arr a) cp (p ++ "[" ++ toString j ++ "]")
      rcases hw2 : wtArrItems g b cp 0 a with ⟨a2, mo⟩
      have hv2 : (wtJson g b cp (Json.arr a)).1 = Json.arr a2 := by
        simp only [wtJson, hw2]
      rw [hv2] at hv
      simp only [wtArrItems, hwr, hw2, leafPathsArr]
      rw [hv, hrest]
    | .s a =>
      simp only [wtArrItems, hwr, leafPathsArr, leafPathsAux]
      rw [hrest]
    | .null =>
      simp only [wtArrItems, hwr, leafPathsArr, leafPathsAux]
      rw [hrest]
    | .info ti =>
      simp only [wtArrItems, hwr, leafPathsArr, leafPathsAux]
      rw [hrest]

end

/-- A bind of a successful `Except` computation reduces to its
continuation. -/
theorem except_bind_ok {α β : Type} (a : α) (f : α → Except String β) :
    (Except.ok a >>= f) = f a := rfl

/-- A successful `_build_field_template` result is always a one-entry
object keyed by the base tag. -/
theorem buildFieldTemplate_shape (doc : PdfDoc) (s : Json)
    (h : buildFieldTemplate doc = .ok s) : ∃ bt inner, s = .obj [(bt, inner)] := by
  unfold buildFieldTemplate at h
  cases hds : readDatasetsFromPdf doc with
  | error e =>
    rw [hds] at h
    exact absurd (show (Except.error e : Except String Json) = .ok s from h)
      (fun hc => Except.noConfusion hc)
  | ok root =>
    rw [hds] at h
    simp only [except_bind_ok] at h
    split at h
    · exact ⟨_, _, (Except.ok.inj h).symm⟩
    · exact ⟨_, _, (Except.ok.inj h).symm⟩

/-- C1 (amended): schema extraction and type extraction always agree on
the list of dotted leaf key-paths (the type walk only replaces scalar
leaves by descriptors); value extraction can differ on mixed-content
dataset nodes (see the `docA` counterexample). -/
theorem C1_schema_type_key_identity (doc : PdfDoc) (s t : Json)
    (hs : extractFieldsFromPdf doc = .ok s) (ht : extractFieldTypes doc = .ok t) :
    leafPaths t = leafPaths s := by
  have hs' : buildFieldTemplate doc = .ok s := hs
  obtain ⟨bt, inner, rfl⟩ := buildFieldTemplate_shape doc s hs'
  unfold extractFieldTypes at ht
  cases hm : extractFieldTypesWithPathMap doc with
  | error e =>
    rw [hm] at ht
    exact absurd (show (Except.error e : Except String Json) = .ok t from ht)
      (fun hc => Except.noConfusion hc)
  | ok pr =>
    obtain ⟨res, m⟩ := pr
    rw [hm] at ht
    replace ht : res = t := Except.ok.inj ht
    subst ht
    unfold extractFieldTypesWithPathMap at hm
    cases hbi : buildFieldTypeInfo doc with
    | error e =>
      rw [hbi] at hm
      exact absurd (show (Except.error e : Except String (Json × List (String × TypeInfo)))
        = .ok (res, m) from hm) (fun hc => Except.noConfusion hc)
    | ok triple =>
      obtain ⟨bp, bn, bj⟩ := triple
      rw [hbi, hs'] at hm
      simp only [except_bind_ok] at hm
      rcases hw : wtJson (getTypeInfoForPath bt bj bp) bt [] inner with ⟨inner2, m2⟩
      rw [hw] at hm
      replace hm := (Except.ok.inj hm)
      have hres : res = .obj [(bt, inner2)] := (congrArg Prod.fst hm).symm
      subst hres
      have hp := wtJson_leafPaths (getTypeInfoForPath bt bj bp) bt inner [] bt
      rw [hw] at hp
      simp only [leafPaths, leafPaths.leafPathsObj2] at *
      rw [hp]

/-- Witness for `C1_schema_type_key_identity` at the concrete `docA`. -/
theorem C1_witness : leafPaths tyA = leafPaths schA :=
  C1_schema_type_key_identity docA schA tyA rfl rfl

/-- C3 (amended): both radio decoders are deterministic and agree on
option labels (returned unchanged), on the common boolean map (`Y` maps
to `Yes` when present), and on unresolvable values (passed through); but
for a numeric string `i` the fill-side `_convert_value_for_field`
resolves 1-based first (`options[i-1]` when `1 ≤ i ≤ len`), while the
extraction-side decode resolves 0-based first (`options[i]` when
`i < len`), so the claimed `options[i-1]` rule holds only on the fill
side. -/
theorem C3_radio_decode_rules :
    (∀ (opts : List String) (v : String) (fmt : Option String) (vm : List (String × String)),
        opts.contains v = true →
        decodeRadioExtract opts v = v ∧
        convertValueForField v (some ⟨"radio", fmt, opts, vm⟩) = v) ∧
    (∀ (opts : List String) (fmt : Option String),
        opts.contains "Yes" = true → opts.contains "Y" = false →
        decodeRadioExtract opts "Y" = "Yes" ∧
        convertValueForField "Y" (some ⟨"radio", fmt, opts, []⟩) = "Yes") ∧
    (∀ (opts : List String) (v : String) (i : Nat) (fmt : Option String),
        pyInt v = some (i : Int) → opts.contains v = false →
        v ≠ "" → v ≠ "Y" → v ≠ "N" → v ≠ "1" → v ≠ "0" →
        (1 ≤ i → i ≤ opts.length →
          convertValueForField v (some ⟨"radio", fmt, opts, []⟩) = (opts.get? (i - 1)).getD v) ∧
        (i < opts.length →
          decodeRadioExtract opts v = (opts.get? i).getD v)) ∧
    (∀ (opts : List String) (v : String) (fmt : Option String),
        opts.contains v = false → pyInt v = none →
        v ≠ "" → v ≠ "Y" → v ≠ "N" → v ≠ "1" → v ≠ "0" →
        (∀ o ∈ opts, pyLower o ≠ pyLower v) →
        decodeRadioExtract opts v = v ∧
        convertValueForField v (some ⟨"radio", fmt, opts, []⟩) = v) := by
  refine ⟨?_, ?_, ?_, ?_⟩
  · intro opts v fmt vm hc
    have hm : v ∈ opts := by simpa using hc
    have hne : opts ≠ [] := by rintro rfl; simp at hm
    constructor
    · simp [decodeRadioExtract, hm]
    · by_cases hv : v = ""
      · subst hv; simp [convertValueForField]
      · simp [convertValueForField, hv, hm, hne]
  · intro opts fmt hyes hy
    have hyes' : "Yes" ∈ opts := by simpa using hyes
    have hy' : "Y" ∉ opts := by simpa using hy
    have hne : opts ≠ [] := by rintro rfl; simp at hyes'
    constructor
    · simp [decodeRadioExtract, hne, hy', alGet, hyes']
    · simp [convertValueForField, hne, hy', alGet, hyes']
  · intro opts v i fmt hpi hc hv hy hn hone hzero
    have hm : v ∉ opts := by simpa using hc
    have hY : ¬ (("Y" : String) = v) := fun hh => hy hh.symm
    have hN : ¬ (("N" : String) = v) := fun hh => hn hh.symm
    have hOne : ¬ (("1" : String) = v) := fun hh => hone hh.symm
    have hZero : ¬ (("0" : String) = v) := fun hh => hzero hh.symm
    constructor
    · intro hge hle
      have hne : opts ≠ [] := by rintro rfl; simp at hle; omega
      have hge' : (1 : Int) ≤ (i : Int) := by exact_mod_cast hge
      have hle' : ((i : Int)) ≤ ((opts.length : Int)) := by exact_mod_cast hle
      cases hg : opts[i - 1]? with
      | none =>
        rw [List.getElem?_eq_none_iff] at hg
        omega
      | some x =>
        simp [convertValueForField, hv, hm, hne, hpi, hge', hle',
          alGet, hY, hN, hOne, hZero, hg]
    · intro hlt
      have hne : opts ≠ [] := by rintro rfl; simp at hlt
      have hnn : (0 : Int) ≤ (i : Int) := Int.natCast_nonneg i
      have hlt' : ((i : Int)) < ((opts.length : Int)) := by exact_mod_cast hlt
      cases hg : opts[i]? with
      | none =>
        rw [List.getElem?_eq_none_iff] at hg
        omega
      | some x =>
        simp [decodeRadioExtract, hne, hv, hm, hpi, hnn, hlt',
          alGet, hY, hN, hOne, hZero, hg]
  · intro opts v fmt hc hpi hv hy hn hone hzero hci
    have hm : v ∉ opts := by simpa using hc
    have hY : ¬ (("Y" : String) = v) := fun hh => hy hh.symm
    have hN : ¬ (("N" : String) = v) := fun hh => hn hh.symm
    have hOne : ¬ (("1" : String) = v) := fun hh => hone hh.symm
    have hZero : ¬ (("0" : String) = v) := fun hh => hzero hh.symm
    have hfind : opts.find? (fun o => pyLower o = pyLower v) = none := by
      rw [List.find?_eq_none]
      intro x hx
      simpa using hci x hx
    constructor
    · by_cases hne : opts = []
      · subst hne; simp [decodeRadioExtract]
      · simp [decodeRadioExtract, hne, hv, hm, alGet, hY, hN, hOne, hZero, hpi]
    · by_cases hne : opts = []
      · subst hne; by_cases hv2 : v = ""
        · subst hv2; simp [convertValueForField]
        · simp [convertValueForField, hv2]
      · simp [convertValueForField, hv, hm, hne, alGet, hY, hN, hOne, hZero, hpi, hfind]

/-- Witness for `C3_radio_decode_rules` at concrete option lists. -/
theorem C3_witness :
    decodeRadioExtract ["A", "B", "C"] "A" = "A" ∧
    decodeRadioExtract ["No", "Yes"] "Y" = "Yes" ∧
    convertValueForField "2" (some ⟨"radio", none, ["A", "B", "C"], []⟩) = "B" ∧
    decodeRadioExtract ["A", "B", "C"] "2" = "C" ∧
    decodeRadioExtract ["A", "B"] "zz" = "zz" := by
  refine ⟨?_, ?_, ?_, ?_, ?_⟩
  · exact (C3_radio_decode_rules.1 ["A", "B", "C"] "A" none [] (by decide)).1
  · exact (C3_radio_decode_rules.2.1 ["No", "Yes"] none (by decide) (by decide)).1
  · exact ((C3_radio_decode_rules.2.2.1 ["A", "B", "C"] "2" 2 none (by decide) (by decide)
      (by decide) (by decide) (by decide) (by decide) (by decide)).1
        (by decide) (by decide)).trans rfl
  · exact ((C3_radio_decode_rules.2.2.1 ["A", "B", "C"] "2" 2 none (by decide) (by decide)
      (by decide) (by decide) (by decide) (by decide) (by decide)).2 (by decide)).trans rfl
  · exact (C3_radio_decode_rules.2.2.2 ["A", "B"] "zz" none (by decide) (by decide) (by decide)
      (by decide) (by decide) (by decide) (by decide) (by decide)).1

end PdfSrv
